import Mathlib

/-!
Verification of the materialscodegraph provenance/runner core against its
specification.  The Python sources are shallowly embedded: Python dicts become
association lists (`List (String × _)`), Python's dynamic values become the
inductive `PyVal`, fallible code returns `Except`/`Option`, and ambient
effects (wall-clock timestamps, the SHA-256 primitive, the regex engine) are
passed in explicitly as function arguments.
-/

set_option maxHeartbeats 1000000
set_option linter.unusedVariables false

namespace MCG

/-- Model of a Python/JSON value as it occurs in asset payloads and parameter
bags: `None`, booleans, integers, strings, lists and string-keyed dicts.
(Floats do not occur in any of the properties verified here and are not
modelled.)  A dict is an association list in insertion order, as in CPython. -/
inductive PyVal where
  | none : PyVal
  | bool : Bool → PyVal
  | int : Int → PyVal
  | str : String → PyVal
  | list : List PyVal → PyVal
  | dict : List (String × PyVal) → PyVal

/-- Keys of an association-list dict are pairwise distinct (a CPython dict can
never hold the same key twice). -/
def nodupKeys : List String → Bool
  | [] => true
  | k :: ks => !(ks.contains k) && nodupKeys ks

/-- Well-formedness of a `PyVal`: every dict occurring in it has pairwise
distinct keys, as is automatic for values built from CPython dicts. -/
def wfB : PyVal → Bool
  | .none => true
  | .bool _ => true
  | .int _ => true
  | .str _ => true
  | .list xs => wfBList xs
  | .dict kvs => nodupKeys (kvs.map Prod.fst) && wfBDict kvs
where
  wfBList : List PyVal → Bool
    | [] => true
    | x :: xs => wfB x && wfBList xs
  wfBDict : List (String × PyVal) → Bool
    | [] => true
    | (_, v) :: kvs => wfB v && wfBDict kvs

mutual
/-- Type-respecting deep equality on modelled values: like Python `==`
except that a `bool` never equals an `int` (CPython's `True == 1` is
excluded).  Dict comparison is insertion-order independent — same number of
entries and, for every entry of the left dict, the right dict maps the same
key to an equal value. -/
def pyEqTyped : PyVal → PyVal → Bool
  | .none, .none => true
  | .bool a, .bool b => a == b
  | .int a, .int b => a == b
  | .str a, .str b => a == b
  | .list a, .list b => pyEqTypedList a b
  | .dict a, .dict b => a.length == b.length && pyEqTypedEntries a b
  | _, _ => false
/-- Elementwise type-respecting deep equality on lists. -/
def pyEqTypedList : List PyVal → List PyVal → Bool
  | [], [] => true
  | x :: xs, y :: ys => pyEqTyped x y && pyEqTypedList xs ys
  | _, _ => false
/-- Every entry of the first dict is matched by the second dict. -/
def pyEqTypedEntries : List (String × PyVal) → List (String × PyVal) → Bool
  | [], _ => true
  | (k, v) :: rest, b => pyLookupEqTyped k v b && pyEqTypedEntries rest b
/-- The first binding of `k` in the dict equals `v`. -/
def pyLookupEqTyped : String → PyVal → List (String × PyVal) → Bool
  | _, _, [] => false
  | k, v, (k2, v2) :: rest => if k = k2 then pyEqTyped v v2 else pyLookupEqTyped k v rest
end

/-- The numeric value CPython uses when comparing a `bool` against an `int`
(`bool` is a subclass of `int`: `True == 1`, `False == 0`). -/
def boolAsInt (b : Bool) : Int := cond b 1 0

mutual
/-- Python `==` (deep equality) on modelled values, including CPython's
cross-type numeric equality between `bool` and `int`. -/
def pyEq : PyVal → PyVal → Bool
  | .none, .none => true
  | .bool a, .bool b => a == b
  | .bool a, .int b => boolAsInt a == b
  | .int a, .bool b => a == boolAsInt b
  | .int a, .int b => a == b
  | .str a, .str b => a == b
  | .list a, .list b => pyEqList a b
  | .dict a, .dict b => a.length == b.length && pyEqEntries a b
  | _, _ => false
/-- Elementwise Python `==` on lists. -/
def pyEqList : List PyVal → List PyVal → Bool
  | [], [] => true
  | x :: xs, y :: ys => pyEq x y && pyEqList xs ys
  | _, _ => false
/-- Every entry of the first dict is matched by the second dict. -/
def pyEqEntries : List (String × PyVal) → List (String × PyVal) → Bool
  | [], _ => true
  | (k, v) :: rest, b => pyLookupEq k v b && pyEqEntries rest b
/-- The first binding of `k` in the dict is `==`-equal to `v`. -/
def pyLookupEq : String → PyVal → List (String × PyVal) → Bool
  | _, _, [] => false
  | k, v, (k2, v2) :: rest => if k = k2 then pyEq v v2 else pyLookupEq k v rest
end

/-- One hex digit, lowercase, as produced by CPython's `\uXXXX` escapes. -/
def hexDigit (n : Nat) : Char :=
  if n < 10 then Char.ofNat (48 + n) else Char.ofNat (87 + n)

/-- Four-digit lowercase hex rendering of `n % 0x10000`. -/
def hex4 (n : Nat) : List Char :=
  [hexDigit (n / 4096 % 16), hexDigit (n / 256 % 16), hexDigit (n / 16 % 16),
   hexDigit (n % 16)]

/-- Escaping of one character as `json.dumps` (with its default
`ensure_ascii=True`) performs it: the two-character escapes for quote,
backslash and the common control characters, `\uXXXX` (with surrogate pairs
beyond the BMP) for the remaining control and all non-ASCII characters. -/
def jsonEscapeChar (c : Char) : List Char :=
  if c = '"' then ['\\', '"']
  else if c = '\\' then ['\\', '\\']
  else if c = '\n' then ['\\', 'n']
  else if c = '\r' then ['\\', 'r']
  else if c = '\t' then ['\\', 't']
  else if c.toNat = 8 then ['\\', 'b']
  else if c.toNat = 12 then ['\\', 'f']
  else if c.toNat < 32 ∨ c.toNat > 126 then
    if c.toNat < 65536 then '\\' :: 'u' :: hex4 c.toNat
    else
      let v := c.toNat - 65536
      ('\\' :: 'u' :: hex4 (55296 + v / 1024)) ++
        ('\\' :: 'u' :: hex4 (56320 + v % 1024))
  else [c]

/-- A JSON string literal for `s`, double-quoted and escaped. -/
def jsonQuote (s : String) : String :=
  String.mk ('"' :: s.data.flatMap jsonEscapeChar ++ ['"'])

/-- Key order used by `json.dumps(…, sort_keys=True)`.  CPython sorts the
`(key, value)` item pairs; the value components are never compared because a
dict cannot repeat a key, so ordering by key alone is exact. -/
def keyLE (a b : String × String) : Prop := a.1 ≤ b.1

instance : DecidableRel keyLE := fun a b => inferInstanceAs (Decidable (a.1 ≤ b.1))

instance : IsTotal (String × String) keyLE := ⟨fun a b => le_total a.1 b.1⟩

instance : IsTrans (String × String) keyLE := ⟨fun _ _ _ h1 h2 => le_trans h1 h2⟩

/-- `json.dumps(v, sort_keys=True, ensure_ascii=True)` with CPython's default
separators `", "` and `": "`: dict entries are serialized and emitted in
sorted key order. -/
def jsonDumps : PyVal → String
  | .none => "null"
  | .bool b => cond b "true" "false"
  | .int n => toString n
  | .str s => jsonQuote s
  | .list xs => "[" ++ String.intercalate ", " (jsonDumpsList xs) ++ "]"
  | .dict kvs =>
      "\x7b" ++
        String.intercalate ", "
          ((List.insertionSort keyLE (jsonDumpsEntries kvs)).map Prod.snd) ++
        "\x7d"
where
  jsonDumpsList : List PyVal → List String
    | [] => []
    | x :: xs => jsonDumps x :: jsonDumpsList xs
  jsonDumpsEntries : List (String × PyVal) → List (String × String)
    | [] => []
    | (k, v) :: kvs => (k, jsonQuote k ++ ": " ++ jsonDumps v) :: jsonDumpsEntries kvs

/-- Python string slicing `s[:n]`. -/
def pySlice (s : String) (n : Nat) : String := String.mk (s.data.take n)

/-- `hash_dict` (app/common/ids.py, lines 12–16): deterministic hash of a
dict, the first 16 hex characters of the SHA-256 of its canonical JSON
serialization.  The SHA-256 hex-digest primitive of `hashlib` is passed in
as the function argument `sha256hexdigest`. -/
def hash_dict (sha256hexdigest : String → String) (data : PyVal) : String :=
  pySlice (sha256hexdigest (jsonDumps data)) 16

/-- The `prefix_map` of `asset_id` (app/common/ids.py, lines 20–26). -/
def prefix_map : List (String × String) :=
  [("System", "S"), ("Method", "M"), ("Params", "P"), ("Results", "R"),
   ("Artifact", "A")]

/-- `asset_id` (app/common/ids.py, lines 18–29): deterministic content-derived
ID for an asset, one-letter kind prefix (`"X"` for unknown kinds) followed by
the first 6 characters of `hash_dict` of the payload. -/
def asset_id (sha256hexdigest : String → String) (asset_type : String)
    (payload : PyVal) : String :=
  let pfx := (prefix_map.lookup asset_type).getD "X"
  pfx ++ pySlice (hash_dict sha256hexdigest payload) 6

/-! ### Helper lemmas for content addressing -/

theorem nodupKeys_iff (ks : List String) : nodupKeys ks = true ↔ ks.Nodup := by
  induction ks with
  | nil => simp [nodupKeys]
  | cons k ks ih =>
    simp [nodupKeys, ih, List.contains, List.nodup_cons]

theorem pyLookupEqTyped_some (k : String) (v : PyVal) :
    ∀ b : List (String × PyVal), pyLookupEqTyped k v b = true →
      ∃ w, b.lookup k = some w ∧ pyEqTyped v w = true := by
  intro b
  induction b with
  | nil => simp [pyLookupEqTyped]
  | cons kv rest ih =>
    intro h
    obtain ⟨k2, v2⟩ := kv
    simp only [pyLookupEqTyped] at h
    by_cases hk : k = k2
    · subst hk
      refine ⟨v2, ?_, by simpa using h⟩
      simp [List.lookup]
    · obtain ⟨w, hw, hvw⟩ := ih (by simpa [hk] using h)
      refine ⟨w, ?_, hvw⟩
      have hbeq : (k == k2) = false := beq_eq_false_iff_ne.mpr hk
      simp [List.lookup, hbeq, hw]

theorem lookup_mem {β : Type} (k : String) (w : β) :
    ∀ l : List (String × β), l.lookup k = some w → (k, w) ∈ l := by
  intro l
  induction l with
  | nil => simp [List.lookup]
  | cons kv rest ih =>
    intro h
    obtain ⟨k2, v2⟩ := kv
    by_cases hk : k = k2
    · subst hk
      simp [List.lookup] at h
      simp [h]
    · have hbeq : (k == k2) = false := beq_eq_false_iff_ne.mpr hk
      simp only [List.lookup, hbeq] at h
      exact List.mem_cons_of_mem _ (ih h)

theorem wfBDict_value {kvs : List (String × PyVal)} {k : String} {v : PyVal}
    (h : wfB.wfBDict kvs = true) (hm : (k, v) ∈ kvs) : wfB v = true := by
  induction kvs with
  | nil => simp at hm
  | cons kv rest ih =>
    simp only [wfB.wfBDict, Bool.and_eq_true] at h
    rcases List.mem_cons.mp hm with h1 | h1
    · obtain ⟨k2, v2⟩ := kv
      cases h1
      exact h.1
    · exact ih h.2 h1

theorem pyEqTypedEntries_forall {a b : List (String × PyVal)}
    (h : pyEqTypedEntries a b = true) :
    ∀ kv ∈ a, pyLookupEqTyped kv.1 kv.2 b = true := by
  induction a with
  | nil => simp
  | cons kv rest ih =>
    obtain ⟨k, v⟩ := kv
    simp only [pyEqTypedEntries, Bool.and_eq_true] at h
    intro kv2 hm
    rcases List.mem_cons.mp hm with h1 | h1
    · subst h1; exact h.1
    · exact ih h.2 kv2 h1

theorem jsonDumpsEntries_eq_map (kvs : List (String × PyVal)) :
    jsonDumps.jsonDumpsEntries kvs =
      kvs.map (fun kv => (kv.1, jsonQuote kv.1 ++ ": " ++ jsonDumps kv.2)) := by
  induction kvs with
  | nil => simp [jsonDumps.jsonDumpsEntries]
  | cons kv rest ih => obtain ⟨k, v⟩ := kv; simp [jsonDumps.jsonDumpsEntries, ih]

theorem eq_of_perm_of_pairwise_asymm {α : Type} {q : α → α → Prop}
    (hq : ∀ x y, q x y → ¬ q y x) :
    ∀ {l1 l2 : List α}, l1.Perm l2 → l1.Pairwise q → l2.Pairwise q → l1 = l2 := by
  intro l1
  induction l1 with
  | nil =>
    intro l2 hp _ _
    rw [hp.symm.eq_nil]
  | cons a t ih =>
    intro l2 hp h1 h2
    cases l2 with
    | nil => exact absurd hp.eq_nil (by simp)
    | cons b t2 =>
      obtain ⟨hqa1, h1t⟩ := List.pairwise_cons.mp h1
      obtain ⟨hqb2, h2t⟩ := List.pairwise_cons.mp h2
      by_cases hab : a = b
      · subst hab
        rw [ih hp.cons_inv h1t h2t]
      · have ha2 : a ∈ t2 := by
          have : a ∈ b :: t2 := hp.subset (List.mem_cons_self a t)
          rcases List.mem_cons.mp this with h | h
          · exact absurd h hab
          · exact h
        have hb1 : b ∈ t := by
          have : b ∈ a :: t := hp.symm.subset (List.mem_cons_self b t2)
          rcases List.mem_cons.mp this with h | h
          · exact absurd h.symm hab
          · exact h
        exact absurd (hqa1 b hb1) (hq _ _ (hqb2 a ha2))

theorem pairwise_keyLt_insertionSort (l : List (String × String))
    (hnd : (l.map Prod.fst).Nodup) :
    (List.insertionSort keyLE l).Pairwise
      (fun a b : String × String => a.1 < b.1) := by
  have hsorted : (List.insertionSort keyLE l).Pairwise keyLE :=
    List.sorted_insertionSort keyLE l
  have hperm : (List.insertionSort keyLE l).Perm l := List.perm_insertionSort keyLE l
  have hnd2 : ((List.insertionSort keyLE l).map Prod.fst).Nodup :=
    (hperm.map Prod.fst).nodup_iff.mpr hnd
  have hne : (List.insertionSort keyLE l).Pairwise
      (fun a b : String × String => a.1 ≠ b.1) :=
    List.pairwise_map.mp hnd2
  exact (hsorted.and hne).imp (fun h => lt_of_le_of_ne h.1 h.2)

/-- Canonical JSON serialization is invariant under Python deep equality of
well-formed values: `p1 == p2` implies equal `json.dumps(…, sort_keys=True)`
output. -/
theorem jsonDumps_congr :
    ∀ (n : Nat) (a b : PyVal), sizeOf a ≤ n →
      wfB a = true → wfB b = true → pyEqTyped a b = true →
      jsonDumps a = jsonDumps b := by
  intro n
  induction n with
  | zero =>
    intro a b hsz
    exact absurd hsz (by cases a <;> simp)
  | succ n ih =>
    intro a b hsz wa wb heq
    cases a with
    | none => cases b <;> simp_all [pyEqTyped]
    | bool x => cases b <;> simp_all [pyEqTyped]
    | int x => cases b <;> simp_all [pyEqTyped]
    | str x => cases b <;> simp_all [pyEqTyped]
    | list xs =>
      cases b with
      | list ys =>
        simp only [pyEqTyped] at heq
        simp only [wfB] at wa wb
        have hxs : sizeOf xs ≤ n := by
          have h1 : sizeOf (PyVal.list xs) = 1 + sizeOf xs := by simp
          omega
        have auxList : ∀ (xs2 ys2 : List PyVal), sizeOf xs2 ≤ n →
            wfB.wfBList xs2 = true → wfB.wfBList ys2 = true →
            pyEqTypedList xs2 ys2 = true →
            jsonDumps.jsonDumpsList xs2 = jsonDumps.jsonDumpsList ys2 := by
          intro xs2
          induction xs2 with
          | nil =>
            intro ys2 _ _ _ hq
            cases ys2 with
            | nil => rfl
            | cons y ys2 => simp [pyEqTypedList] at hq
          | cons x xs2 ihx =>
            intro ys2 hsz2 wa2 wb2 hq
            cases ys2 with
            | nil => simp [pyEqTypedList] at hq
            | cons y ys2 =>
              simp only [pyEqTypedList, Bool.and_eq_true] at hq
              simp only [wfB.wfBList, Bool.and_eq_true] at wa2 wb2
              have hx : sizeOf x ≤ n := by
                have h1 : sizeOf (x :: xs2) = 1 + sizeOf x + sizeOf xs2 := by simp
                omega
              have hxs3 : sizeOf xs2 ≤ n := by
                have h1 : sizeOf (x :: xs2) = 1 + sizeOf x + sizeOf xs2 := by simp
                omega
              simp only [jsonDumps.jsonDumpsList]
              rw [ih x y hx wa2.1 wb2.1 hq.1, ihx ys2 hxs3 wa2.2 wb2.2 hq.2]
        simp only [jsonDumps]
        rw [auxList xs ys hxs wa wb heq]
      | none => simp [pyEqTyped] at heq
      | bool y => simp [pyEqTyped] at heq
      | int y => simp [pyEqTyped] at heq
      | str y => simp [pyEqTyped] at heq
      | dict ykvs => simp [pyEqTyped] at heq
    | dict akvs =>
      cases b with
      | dict bkvs =>
        simp only [pyEqTyped, Bool.and_eq_true, beq_iff_eq] at heq
        obtain ⟨hlen, hsub⟩ := heq
        simp only [wfB, Bool.and_eq_true] at wa wb
        obtain ⟨hnda, hwa⟩ := wa
        obtain ⟨hndb, hwb⟩ := wb
        have hszk : sizeOf akvs ≤ n := by
          have : sizeOf (PyVal.dict akvs) = 1 + sizeOf akvs := by simp
          omega
        have hndA : (akvs.map Prod.fst).Nodup := (nodupKeys_iff _).mp hnda
        have hndB : (bkvs.map Prod.fst).Nodup := (nodupKeys_iff _).mp hndb
        simp only [jsonDumps, jsonDumpsEntries_eq_map]
        set f : String × PyVal → String × String :=
          fun kv => (kv.1, jsonQuote kv.1 ++ ": " ++ jsonDumps kv.2) with hf
        have hfstA : (akvs.map f).map Prod.fst = akvs.map Prod.fst := by
          simp [hf, List.map_map, Function.comp]
        have hfstB : (bkvs.map f).map Prod.fst = bkvs.map Prod.fst := by
          simp [hf, List.map_map, Function.comp]
        have hndA2 : (akvs.map f).Nodup := by
          apply List.Nodup.of_map Prod.fst
          rw [hfstA]; exact hndA
        have hsubset : ∀ e ∈ akvs.map f, e ∈ bkvs.map f := by
          intro e he
          obtain ⟨⟨k, v⟩, hkv, rfl⟩ := List.mem_map.mp he
          have hl : pyLookupEqTyped k v bkvs = true := pyEqTypedEntries_forall hsub _ hkv
          obtain ⟨w, hw, hvw⟩ := pyLookupEqTyped_some k v bkvs hl
          have hmem : (k, w) ∈ bkvs := lookup_mem k w bkvs hw
          have hv : sizeOf v ≤ n := by
            have h1 : sizeOf (k, v) < sizeOf akvs := List.sizeOf_lt_of_mem hkv
            have h2 : sizeOf (k, v) = 1 + sizeOf k + sizeOf v := by simp
            omega
          have hdv : jsonDumps v = jsonDumps w :=
            ih v w hv (wfBDict_value hwa hkv) (wfBDict_value hwb hmem) hvw
          exact List.mem_map.mpr ⟨(k, w), hmem, by simp [hf, hdv]⟩
        have hperm : (akvs.map f).Perm (bkvs.map f) :=
          (hndA2.subperm hsubset).perm_of_length_le (by simp [hlen])
        have hsorteq :
            List.insertionSort keyLE (akvs.map f) =
              List.insertionSort keyLE (bkvs.map f) := by
          apply eq_of_perm_of_pairwise_asymm
            (q := fun a b : String × String => a.1 < b.1)
            (fun x y h => lt_asymm h)
          · exact ((List.perm_insertionSort _ _).trans hperm).trans
              (List.perm_insertionSort _ _).symm
          · exact pairwise_keyLt_insertionSort _ (by rw [hfstA]; exact hndA)
          · exact pairwise_keyLt_insertionSort _ (by rw [hfstB]; exact hndB)
        rw [hsorteq]
      | none => simp [pyEqTyped] at heq
      | bool y => simp [pyEqTyped] at heq
      | int y => simp [pyEqTyped] at heq
      | str y => simp [pyEqTyped] at heq
      | list ys => simp [pyEqTyped] at heq

/-- C1 (amended): content addressing of assets.  For every asset kind and
every pair of well-formed payload dictionaries `p1`, `p2`, if `p1` and `p2`
are deeply equal at identical value types — Python deep equality minus the
`bool`/`int` cross-type identification, which genuinely breaks content
addressing, see `asset_id_content_addressing_counterexample` — then
`asset_id(kind, p1) = asset_id(kind, p2)`; and for every payload the id
equals the kind's one-letter prefix followed by the first 6 hex characters
of the SHA-256 of the canonical JSON of the payload (keys sorted
deterministically before hashing). -/
theorem asset_id_content_addressing
    (sha256hexdigest : String → String) (kind : String) (p1 p2 : PyVal)
    (w1 : wfB p1 = true) (w2 : wfB p2 = true) (heq : pyEqTyped p1 p2 = true) :
    asset_id sha256hexdigest kind p1 = asset_id sha256hexdigest kind p2 ∧
    ∀ p : PyVal, asset_id sha256hexdigest kind p =
      (prefix_map.lookup kind).getD "X" ++
        pySlice (sha256hexdigest (jsonDumps p)) 6 := by
  constructor
  · have hd : jsonDumps p1 = jsonDumps p2 :=
      jsonDumps_congr (sizeOf p1) p1 p2 le_rfl w1 w2 heq
    simp [asset_id, hash_dict, hd]
  · intro p
    simp [asset_id, hash_dict, pySlice, List.take_take]

/-- Witness for C1: a concrete hash function, kind `"System"`, and a pair of
payload dicts that are deeply equal but listed in different insertion order. -/
theorem asset_id_content_addressing_witness :
    wfB (PyVal.dict [("a", PyVal.int 1), ("b", PyVal.str "x")]) = true ∧
    wfB (PyVal.dict [("b", PyVal.str "x"), ("a", PyVal.int 1)]) = true ∧
    pyEqTyped (PyVal.dict [("a", PyVal.int 1), ("b", PyVal.str "x")])
      (PyVal.dict [("b", PyVal.str "x"), ("a", PyVal.int 1)]) = true ∧
    (asset_id (fun s => s) "System"
        (PyVal.dict [("a", PyVal.int 1), ("b", PyVal.str "x")]) =
      asset_id (fun s => s) "System"
        (PyVal.dict [("b", PyVal.str "x"), ("a", PyVal.int 1)]) ∧
     ∀ p : PyVal, asset_id (fun s => s) "System" p =
       (prefix_map.lookup "System").getD "X" ++
         pySlice ((fun s : String => s) (jsonDumps p)) 6) :=
  ⟨by decide, by decide,
   by simp [pyEqTyped, pyEqTypedEntries, pyLookupEqTyped, pyEqTypedList],
   asset_id_content_addressing (fun s => s) "System" _ _ (by decide) (by decide)
     (by simp [pyEqTyped, pyEqTypedEntries, pyLookupEqTyped, pyEqTypedList])⟩

/-- Counterexample to C1 as stated: CPython's deep equality identifies
`True` with `1` (`bool` is an `int` subclass), so the payloads
`{"": True}` and `{"": 1}` satisfy `p1 == p2`, yet their canonical JSON
serializations differ (`true` versus `1`) and the derived asset ids
disagree (exhibited with an explicit digest function; with SHA-256 the
digests of distinct serializations differ except for a hash collision). -/
theorem asset_id_content_addressing_counterexample :
    pyEq (PyVal.dict [("", PyVal.bool true)]) (PyVal.dict [("", PyVal.int 1)]) =
        true ∧
    wfB (PyVal.dict [("", PyVal.bool true)]) = true ∧
    wfB (PyVal.dict [("", PyVal.int 1)]) = true ∧
    jsonDumps (PyVal.dict [("", PyVal.bool true)]) ≠
      jsonDumps (PyVal.dict [("", PyVal.int 1)]) ∧
    asset_id (fun s => s) "System" (PyVal.dict [("", PyVal.bool true)]) ≠
      asset_id (fun s => s) "System" (PyVal.dict [("", PyVal.int 1)]) := by
  refine ⟨?_, by decide, by decide, by decide, by decide⟩
  simp [pyEq, pyEqEntries, pyLookupEq, boolAsInt]

/-! ### common/schema.py: Asset, Run, Edge and their wire forms -/

/-- `Asset` (common/schema.py, lines 11–19): a typed unit of data with open
payload and optional `units`/`uri`/`hash` fields (`None` when absent). -/
structure Asset where
  type : String
  id : String
  payload : List (String × PyVal)
  units : Option (List (String × String)) := Option.none
  uri : Option String := Option.none
  hash : Option String := Option.none

/-- `Asset.to_dict` (common/schema.py, lines 21–33).  The three mandatory
entries are always present; each optional field is added only when Python
finds it truthy (`if self.units:` …), which omits both `None` and empty
values (`{}`, `""`). -/
def Asset.to_dict (a : Asset) : List (String × PyVal) :=
  [("type", PyVal.str a.type), ("id", PyVal.str a.id),
   ("payload", PyVal.dict a.payload)] ++
  (match a.units with
   | some u =>
     if u.isEmpty then []
     else [("units", PyVal.dict (u.map fun kv => (kv.1, PyVal.str kv.2)))]
   | Option.none => []) ++
  (match a.uri with
   | some s => if s = "" then [] else [("uri", PyVal.str s)]
   | Option.none => []) ++
  (match a.hash with
   | some s => if s = "" then [] else [("hash", PyVal.str s)]
   | Option.none => [])

/-- Decode a dict of strings back into a typed `units` map. -/
def strEntries : List (String × PyVal) → Option (List (String × String))
  | [] => some []
  | (k, PyVal.str s) :: rest => (strEntries rest).map ((k, s) :: ·)
  | _ => Option.none

/-- `Asset.from_dict` (common/schema.py, lines 35–37), i.e. `cls(**data)`:
the wire dict's entries are passed as the constructor's keyword arguments.
An unknown key is a `TypeError` in Python, modelled as `Option.none`.  The
decoder also requires each field to have its declared shape; CPython's
dataclass performs no such validation, but the decoder is only ever applied
to `to_dict` output, where the shapes always match. -/
def Asset.from_dict (data : List (String × PyVal)) : Option Asset :=
  if data.all fun kv =>
      kv.1 = "type" ∨ kv.1 = "id" ∨ kv.1 = "payload" ∨ kv.1 = "units" ∨
      kv.1 = "uri" ∨ kv.1 = "hash" then
    match data.lookup "type", data.lookup "id", data.lookup "payload" with
    | some (PyVal.str t), some (PyVal.str i), some (PyVal.dict p) =>
      let unitsField : Option (Option (List (String × String))) :=
        match data.lookup "units" with
        | Option.none => some Option.none
        | some (PyVal.dict kvs) => (strEntries kvs).map some
        | some _ => Option.none
      let uriField : Option (Option String) :=
        match data.lookup "uri" with
        | Option.none => some Option.none
        | some (PyVal.str s) => some (some s)
        | some _ => Option.none
      let hashField : Option (Option String) :=
        match data.lookup "hash" with
        | Option.none => some Option.none
        | some (PyVal.str s) => some (some s)
        | some _ => Option.none
      match unitsField, uriField, hashField with
      | some u, some r, some h => some ⟨t, i, p, u, r, h⟩
      | _, _, _ => Option.none
    | _, _, _ => Option.none
  else Option.none

/-- `Run` (common/schema.py, lines 39–47). -/
structure Run where
  id : String
  kind : String
  status : String
  runner_version : Option String := Option.none
  started_at : Option String := Option.none
  ended_at : Option String := Option.none
  deriving DecidableEq

/-- `Edge` (common/schema.py, lines 67–74): an immutable provenance fact. -/
structure Edge where
  from_id : String
  to_id : String
  rel : String
  t : String
  deriving DecidableEq

/-! ### app/memory_mcp/store.py: the in-memory provenance store

Modelled with `persist_path = None`, for which `_save` is an immediate
no-op and `_load` never runs; the store is then exactly an asset dict plus
the append-only edge ledger. -/

/-- CPython dict assignment `d[k] = v`: update the first binding of `k` in
place, otherwise append a new binding. -/
def dictInsert {β : Type} : List (String × β) → String → β → List (String × β)
  | [], k, v => [(k, v)]
  | (k2, v2) :: rest, k, v =>
    if k = k2 then (k, v) :: rest else (k2, v2) :: dictInsert rest k v

/-- `MemoryStore` (app/memory_mcp/store.py, lines 9–18). -/
structure MemoryStore where
  assets : List (String × Asset)
  edges : List Edge

/-- `MemoryStore.put_asset` (store.py, lines 20–24). -/
def MemoryStore.put_asset (st : MemoryStore) (a : Asset) : MemoryStore × String :=
  ({ st with assets := dictInsert st.assets a.id a }, a.id)

/-- `MemoryStore.get_asset` (store.py, lines 26–28). -/
def MemoryStore.get_asset (st : MemoryStore) (asset_id : String) : Option Asset :=
  st.assets.lookup asset_id

/-- `MemoryStore.get_assets` (store.py, lines 30–32). -/
def MemoryStore.get_assets (st : MemoryStore) (ids : List String) : List Asset :=
  ids.filterMap st.assets.lookup

/-- `MemoryStore.append_edge` (store.py, lines 34–37). -/
def MemoryStore.append_edge (st : MemoryStore) (e : Edge) : MemoryStore :=
  { st with edges := st.edges ++ [e] }

/-- `MemoryStore.append_edges` (store.py, lines 39–44): appends every edge in
order and returns the count of edges appended. -/
def MemoryStore.append_edges (st : MemoryStore) (es : List Edge) :
    MemoryStore × Nat :=
  ({ st with edges := st.edges ++ es }, es.length)

/-- `MemoryStore.query_edges` (store.py, lines 46–61).  Each filter argument
is applied only when truthy (`if from_id:`), i.e. present and non-empty. -/
def MemoryStore.query_edges (st : MemoryStore) (from_id to_id run_id : Option String) :
    List Edge :=
  let result := st.edges
  let result := match from_id with
    | some s => if s ≠ "" then result.filter (fun e => e.from_id = s) else result
    | Option.none => result
  let result := match to_id with
    | some s => if s ≠ "" then result.filter (fun e => e.to_id = s) else result
    | Option.none => result
  match run_id with
    | some s =>
      if s ≠ "" then result.filter (fun e => e.from_id = s ∨ e.to_id = s)
      else result
    | Option.none => result

/-- C2: the edge ledger is append-only.  After `append_edges E1` then
`append_edges E2`, an unfiltered `query_edges` returns the previously stored
edges followed by `E1` then `E2` in exactly that order, each append returns
the count of edges it appended, and no store mutation removes or reorders
existing ledger entries (`put_asset` leaves the ledger untouched; the append
operations only extend it on the right). -/
theorem ledger_append_only (st : MemoryStore) (E1 E2 : List Edge) :
    (((st.append_edges E1).1.append_edges E2).1.query_edges
        Option.none Option.none Option.none = st.edges ++ E1 ++ E2) ∧
    (st.append_edges E1).2 = E1.length ∧
    ((st.append_edges E1).1.append_edges E2).2 = E2.length ∧
    (∀ a : Asset, (st.put_asset a).1.edges = st.edges) ∧
    (∀ e : Edge, (st.append_edge e).edges = st.edges ++ [e]) ∧
    (∀ E : List Edge, (st.append_edges E).1.edges = st.edges ++ E) := by
  refine ⟨?_, rfl, rfl, fun a => rfl, fun e => rfl, fun E => rfl⟩
  simp [MemoryStore.append_edges, MemoryStore.query_edges]

/-- Encoding of a typed `units` map round-trips through `strEntries`. -/
theorem strEntries_map (u : List (String × String)) :
    strEntries (u.map fun kv => (kv.1, PyVal.str kv.2)) = some u := by
  induction u with
  | nil => rfl
  | cons kv rest ih => obtain ⟨k, v⟩ := kv; simp [strEntries, ih]

/-- C3 (amended): the wire round-trip `Asset.from_dict (asset.to_dict)`
restores every asset field-for-field provided each optional field is either
absent (`None`) or truthy (a non-empty map/string).  The unamended claim
fails for falsy-but-present optional values, see
`asset_roundtrip_counterexample`. -/
theorem asset_roundtrip (a : Asset)
    (hu : a.units ≠ some []) (hr : a.uri ≠ some "") (hh : a.hash ≠ some "") :
    Asset.from_dict (Asset.to_dict a) = some a := by
  obtain ⟨t, i, p, u, r, h⟩ := a
  cases u with
  | none =>
    cases r with
    | none =>
      cases h with
      | none => rfl
      | some s =>
        have hs : ¬s = "" := fun h2 => hh (by simp [h2])
        simp only [Asset.to_dict, Asset.from_dict]
        simp [hs, List.lookup, strEntries]
    | some s =>
      have hs : ¬s = "" := fun h2 => hr (by simp [h2])
      cases h with
      | none =>
        simp only [Asset.to_dict, Asset.from_dict]
        simp [hs, List.lookup, strEntries]
      | some s2 =>
        have hs2 : ¬s2 = "" := fun h2 => hh (by simp [h2])
        simp only [Asset.to_dict, Asset.from_dict]
        simp [hs, hs2, List.lookup, strEntries]
  | some u =>
    have hu2 : ¬u.isEmpty = true := by
      cases u with
      | nil => exact fun _ => hu (by simp)
      | cons x xs => simp
    cases r with
    | none =>
      cases h with
      | none =>
        simp only [Asset.to_dict, Asset.from_dict]
        simp [hu2, List.lookup, strEntries_map]
      | some s =>
        have hs : ¬s = "" := fun h2 => hh (by simp [h2])
        simp only [Asset.to_dict, Asset.from_dict]
        simp [hu2, hs, List.lookup, strEntries_map]
    | some s =>
      have hs : ¬s = "" := fun h2 => hr (by simp [h2])
      cases h with
      | none =>
        simp only [Asset.to_dict, Asset.from_dict]
        simp [hu2, hs, List.lookup, strEntries_map]
      | some s2 =>
        have hs2 : ¬s2 = "" := fun h2 => hh (by simp [h2])
        simp only [Asset.to_dict, Asset.from_dict]
        simp [hu2, hs, hs2, List.lookup, strEntries_map]

/-- Witness for C3 at a concrete asset with all optional fields absent. -/
theorem asset_roundtrip_witness :
    (Asset.mk "Params" "P1" [("k", PyVal.int 1)] Option.none Option.none
        Option.none).units ≠ some [] ∧
    (Asset.mk "Params" "P1" [("k", PyVal.int 1)] Option.none Option.none
        Option.none).uri ≠ some "" ∧
    (Asset.mk "Params" "P1" [("k", PyVal.int 1)] Option.none Option.none
        Option.none).hash ≠ some "" ∧
    Asset.from_dict (Asset.to_dict
        (Asset.mk "Params" "P1" [("k", PyVal.int 1)] Option.none Option.none
          Option.none)) =
      some (Asset.mk "Params" "P1" [("k", PyVal.int 1)] Option.none Option.none
        Option.none) :=
  ⟨by simp, by simp, by simp,
   asset_roundtrip _ (by simp) (by simp) (by simp)⟩

/-- Counterexample to C3 as stated: an asset whose `units` field is present
but empty (`{}` — falsy in Python) does not survive the round-trip; the
rebuilt asset has `units = None`. -/
theorem asset_roundtrip_counterexample :
    Asset.from_dict (Asset.to_dict
        (Asset.mk "Results" "R1" [] (some []) Option.none Option.none)) ≠
      some (Asset.mk "Results" "R1" [] (some []) Option.none Option.none) := by
  intro h
  have hL : Asset.from_dict (Asset.to_dict
      (Asset.mk "Results" "R1" [] (some []) Option.none Option.none)) =
      some (Asset.mk "Results" "R1" [] Option.none Option.none Option.none) := rfl
  rw [hL] at h
  simp [Asset.mk.injEq] at h

/-! ### compute_mcp/generic_runner.py: configuration model and method resolution

A job definition is a JSON document; the record below carries the fields the
verified code paths read (`config.get(...)`).  Method configurations stay as
raw `PyVal` dicts because the code tests them for dict truthiness.  The
`context_builders` section and the regex-based template post-processors are
not modelled; the properties below are about configurations without them.
The `re.search` primitive is passed in as the function argument `research`. -/

/-- Python `repr` of a modelled value (string escaping inside `repr` of a
string is not modelled; none of the verified properties depends on it). -/
def pyRepr : PyVal → String
  | .none => "None"
  | .bool b => cond b "True" "False"
  | .int n => toString n
  | .str s => "'" ++ s ++ "'"
  | .list xs => "[" ++ String.intercalate ", " (pyReprList xs) ++ "]"
  | .dict kvs => "\x7b" ++ String.intercalate ", " (pyReprEntries kvs) ++ "\x7d"
where
  pyReprList : List PyVal → List String
    | [] => []
    | x :: xs => pyRepr x :: pyReprList xs
  pyReprEntries : List (String × PyVal) → List String
    | [] => []
    | (k, v) :: kvs => ("'" ++ k ++ "': " ++ pyRepr v) :: pyReprEntries kvs

/-- Python `str` of a modelled value: like `repr` except that a top-level
string is returned unquoted. -/
def pyStr : PyVal → String
  | .str s => s
  | v => pyRepr v

/-- Python truthiness of a modelled value. -/
def pvTruthy : PyVal → Bool
  | .none => false
  | .bool b => b
  | .int n => !(n == 0)
  | .str s => !(s == "")
  | .list xs => !xs.isEmpty
  | .dict kvs => !kvs.isEmpty

/-- The `condition` dict of a `method_resolution` rule. -/
structure Condition where
  requires_any : Option (List String) := Option.none
  requires_all : Option (List String) := Option.none
  patterns : Option (List (String × String)) := Option.none

/-- Truthiness of the condition dict (`if not condition: return False`).  A
condition holding only keys the evaluator never reads behaves identically to
an empty one, so emptiness of the three read fields is exact. -/
def Condition.truthy (c : Condition) : Bool :=
  c.requires_any.isSome || c.requires_all.isSome || c.patterns.isSome

/-- One entry of the `method_resolution` table. -/
structure RuleSpec where
  condition : Condition := {}
  method : Option String := Option.none

/-- One entry of the `understands` table. -/
structure Understanding where
  keywords : List String := []
  method : Option String := Option.none

/-- The slice of a loaded job-definition document read by the verified code
paths of `GenericRunner`. -/
structure Config where
  name : String := ""
  methods : List (String × PyVal) := []
  method_resolution : List (String × RuleSpec) := []
  understands : List (String × Understanding) := []
  capabilities : List String := []
  parameter_mapping : List (String × List String) := []
  template_syntax_escapes : List (String × String) := []

/-- `GenericRunner._evaluate_rule` (generic_runner.py, lines 399–422): an
empty condition never fires; `requires_any` fires when any named key is
present (falling through otherwise); a present `requires_all` decides the
rule outright; otherwise `patterns` fires when some named parameter's string
form matches its regex. -/
def _evaluate_rule (research : String → String → Bool) (condition : Condition)
    (params : List (String × PyVal)) : Bool :=
  if !condition.truthy then false
  else if (match condition.requires_any with
           | some names => names.any fun n => (params.lookup n).isSome
           | Option.none => false) then true
  else match condition.requires_all with
    | some names => names.all fun n => (params.lookup n).isSome
    | Option.none =>
      match condition.patterns with
      | some pats => pats.any fun pp =>
          match params.lookup pp.1 with
          | some v => research pp.2 (pyStr v)
          | Option.none => false
      | Option.none => false

/-- Substring test on character lists, Python's `needle in hay`. -/
def listContainsSub (hay needle : List Char) : Bool :=
  match hay with
  | [] => needle.isEmpty
  | _ :: t => needle.isPrefixOf hay || listContainsSub t needle

/-- `GenericRunner._matches_understanding` (generic_runner.py, lines
424–430): some keyword occurs, case-insensitively, inside the
space-concatenated string forms of all parameter values. -/
def _matches_understanding (_phrase : String) (details : Understanding)
    (params : List (String × PyVal)) : Bool :=
  let param_values :=
    (String.intercalate " " (params.map fun kv => pyStr kv.2)).toLower
  details.keywords.any fun kw => listContainsSub param_values.data kw.toLower.data

/-- `GenericRunner._resolve_method` (generic_runner.py, lines 363–397):
an explicit `method` parameter wins when it names a configured method
(a non-matching one only prints a warning and falls through); otherwise the
first matching `method_resolution` rule; otherwise the first matching
`understands` phrase; otherwise the first declared method; otherwise the
first capability; otherwise the literal `"default"`. -/
def _resolve_method (research : String → String → Bool) (config : Config)
    (params : List (String × PyVal)) : String :=
  let explicitMethod : Option String :=
    match params.lookup "method" with
    | some (PyVal.str m) =>
      if (config.methods.lookup m).isSome then some m else Option.none
    | _ => Option.none
  match explicitMethod with
  | some m => m
  | Option.none =>
    match config.method_resolution.find?
        (fun r => _evaluate_rule research r.2.condition params) with
    | some r => r.2.method.getD r.1
    | Option.none =>
      match config.understands.find?
          (fun u => _matches_understanding u.1 u.2 params) with
      | some u => u.2.method.getD u.1
      | Option.none =>
        match config.methods with
        | m :: _ => m.1
        | [] =>
          match config.capabilities with
          | c :: _ => c
          | [] => "default"

/-- The `ValueError` message of `GenericRunner.run` (generic_runner.py, lines
64–66) when the resolved method has no configuration. -/
def errNoMethodConfig (method : String) (config : Config) : String :=
  "No method configuration found for: " ++ method ++ ". Available methods: " ++
    pyStr (PyVal.list (config.methods.map fun kv => PyVal.str kv.1))

/-- The method-resolution step of `GenericRunner.run` (generic_runner.py,
lines 60–66): resolve a method name, then require a truthy configuration for
it, raising the explicit `ValueError` otherwise. -/
def resolveMethodChecked (research : String → String → Bool) (config : Config)
    (params : List (String × PyVal)) : Except String String :=
  let method := _resolve_method research config params
  match config.methods.lookup method with
  | some mc =>
    if pvTruthy mc then Except.ok method
    else Except.error (errNoMethodConfig method config)
  | Option.none => Except.error (errNoMethodConfig method config)

/-- C4: method resolution precedence.  Whenever the parameter bag carries an
explicit `method` entry naming a declared method, `_resolve_method` returns
that method, regardless of the resolution rules, keyword phrases or
first-declared-method fallback. -/
theorem resolve_method_explicit_precedence (research : String → String → Bool)
    (config : Config) (params : List (String × PyVal)) (m : String)
    (hm : params.lookup "method" = some (PyVal.str m))
    (hdecl : (config.methods.lookup m).isSome) :
    _resolve_method research config params = m := by
  simp [_resolve_method, hm, hdecl]

/-- Witness for C4: an explicit valid `method` beats a `requires_any` rule
that would otherwise fire on the same parameters. -/
theorem resolve_method_explicit_precedence_witness :
    ([("method", PyVal.str "other"), ("x", PyVal.int 1)] :
        List (String × PyVal)).lookup "method" = some (PyVal.str "other") ∧
    ((Config.mk "demo" [("md", PyVal.dict [("s", PyVal.int 1)]),
        ("other", PyVal.dict [("s", PyVal.int 2)])]
        [("r1", RuleSpec.mk (Condition.mk (some ["x"]) Option.none Option.none)
          (some "md"))] [] [] [] []).methods.lookup "other").isSome ∧
    _resolve_method (fun _ _ => false)
      (Config.mk "demo" [("md", PyVal.dict [("s", PyVal.int 1)]),
        ("other", PyVal.dict [("s", PyVal.int 2)])]
        [("r1", RuleSpec.mk (Condition.mk (some ["x"]) Option.none Option.none)
          (some "md"))] [] [] [] [])
      [("method", PyVal.str "other"), ("x", PyVal.int 1)] = "other" :=
  ⟨rfl, by decide,
   resolve_method_explicit_precedence (fun _ _ => false) _ _ _ rfl (by decide)⟩

/-- C5: a job definition with zero methods cannot resolve.  The resolution
step of `run` (resolve, then validate against the methods table) raises the
explicit `ValueError` for every parameter bag, so no method name — empty or
defaulted — is ever returned to the caller. -/
theorem zero_methods_resolution_error (research : String → String → Bool)
    (config : Config) (params : List (String × PyVal))
    (hz : config.methods = []) :
    resolveMethodChecked research config params =
      Except.error
        (errNoMethodConfig (_resolve_method research config params) config) ∧
    ∀ s : String, resolveMethodChecked research config params ≠ Except.ok s := by
  constructor
  · simp [resolveMethodChecked, hz, List.lookup]
  · intro s h
    rw [show resolveMethodChecked research config params =
        Except.error
          (errNoMethodConfig (_resolve_method research config params) config)
      from by simp [resolveMethodChecked, hz, List.lookup]] at h
    exact Except.noConfusion h

/-- Witness for C5 at a concrete zero-method definition (with capabilities,
so the internal fallback chain is exercised all the way down). -/
theorem zero_methods_resolution_error_witness :
    (Config.mk "empty" [] [] [] ["cap"] [] []).methods = [] ∧
    resolveMethodChecked (fun _ _ => false)
        (Config.mk "empty" [] [] [] ["cap"] [] []) [("x", PyVal.int 1)] =
      Except.error
        (errNoMethodConfig
          (_resolve_method (fun _ _ => false)
            (Config.mk "empty" [] [] [] ["cap"] [] []) [("x", PyVal.int 1)])
          (Config.mk "empty" [] [] [] ["cap"] [] [])) :=
  ⟨rfl,
   (zero_methods_resolution_error (fun _ _ => false) _ [("x", PyVal.int 1)]
     rfl).1⟩

/-- A definition used to refute C9 as stated: it declares one method `m1`
and a resolution rule that fires exactly when a `method` key — valid or not —
is present in the parameter bag. -/
def cfgMethodSensitive : Config :=
  Config.mk "demo" [("m1", PyVal.dict [("s", PyVal.int 1)])]
    [("r1", RuleSpec.mk (Condition.mk (some ["method"]) Option.none Option.none)
      (some "m2"))] [] [] [] []

/-- A second refuting definition for C9: its only resolution rule is *named*
`bad` and carries no `method` field, so when the rule fires the resolver
returns the rule's name via `rule_spec.get('method', rule_name)`. -/
def cfgRuleNamedBad : Config :=
  Config.mk "demo" [("m1", PyVal.dict [("s", PyVal.int 1)])]
    [("bad", RuleSpec.mk (Condition.mk (some ["x"]) Option.none Option.none)
      Option.none)] [] [] [] []

/-- Counterexample to C9 as stated, refuting both of its conclusions.  With
an invalid explicit method the resolver does fall through, but (1) the
fallback chain still sees the `method` entry in the parameter bag, so the
outcome is NOT "exactly as if no `method` parameter had been supplied" —
here `"m2"` (a `requires_any: [method]` rule fires) versus `"m1"` (first
declared method) without the entry; and (2) the resolver CAN return the
invalid name — under `cfgRuleNamedBad` the firing rule is named `bad`,
declares no method, and `rule_spec.get('method', rule_name)` hands back
`"bad"` even though no method `bad` is configured. -/
theorem resolve_method_invalid_counterexample :
    (_resolve_method (fun _ _ => false) cfgMethodSensitive
        [("method", PyVal.str "bad")] = "m2" ∧
     _resolve_method (fun _ _ => false) cfgMethodSensitive [] = "m1" ∧
     ("m2" : String) ≠ "m1") ∧
    (_resolve_method (fun _ _ => false) cfgRuleNamedBad
        [("method", PyVal.str "bad"), ("x", PyVal.int 1)] = "bad" ∧
     cfgRuleNamedBad.methods.lookup "bad" = Option.none) :=
  ⟨⟨rfl, rfl, by decide⟩, ⟨rfl, rfl⟩⟩

/-- C9 (amended): an invalid explicit method falls through without raising.
When the `method` entry does not name a declared method, `_resolve_method`
continues down the fallback chain — resolution rules, then keyword phrases,
then the first declared method, then capabilities, then `"default"` — but
evaluated against the full parameter bag, which still contains the invalid
`method` entry (not as if the entry had been removed; see
`resolve_method_invalid_counterexample`). -/
theorem resolve_method_invalid_falls_through (research : String → String → Bool)
    (config : Config) (params : List (String × PyVal)) (v : PyVal)
    (hm : params.lookup "method" = some v)
    (hinv : ∀ m : String, v = PyVal.str m →
      config.methods.lookup m = Option.none) :
    _resolve_method research config params =
      (match config.method_resolution.find?
          (fun r => _evaluate_rule research r.2.condition params) with
       | some r => r.2.method.getD r.1
       | Option.none =>
         match config.understands.find?
             (fun u => _matches_understanding u.1 u.2 params) with
         | some u => u.2.method.getD u.1
         | Option.none =>
           match config.methods with
           | m :: _ => m.1
           | [] =>
             match config.capabilities with
             | c :: _ => c
             | [] => "default") := by
  cases v with
  | str m => simp [_resolve_method, hm, hinv m rfl]
  | none => simp [_resolve_method, hm]
  | bool b => simp [_resolve_method, hm]
  | int n => simp [_resolve_method, hm]
  | list xs => simp [_resolve_method, hm]
  | dict kvs => simp [_resolve_method, hm]

/-- Witness for C9's amended theorem at the concrete rule-firing definition. -/
theorem resolve_method_invalid_falls_through_witness :
    ([("method", PyVal.str "bad")] : List (String × PyVal)).lookup "method" =
        some (PyVal.str "bad") ∧
    (∀ m : String, PyVal.str "bad" = PyVal.str m →
      cfgMethodSensitive.methods.lookup m = Option.none) ∧
    _resolve_method (fun _ _ => false) cfgMethodSensitive
        [("method", PyVal.str "bad")] =
      (match cfgMethodSensitive.method_resolution.find?
          (fun r => _evaluate_rule (fun _ _ => false) r.2.condition
            [("method", PyVal.str "bad")]) with
       | some r => r.2.method.getD r.1
       | Option.none =>
         match cfgMethodSensitive.understands.find?
             (fun u => _matches_understanding u.1 u.2
               [("method", PyVal.str "bad")]) with
         | some u => u.2.method.getD u.1
         | Option.none =>
           match cfgMethodSensitive.methods with
           | m :: _ => m.1
           | [] =>
             match cfgMethodSensitive.capabilities with
             | c :: _ => c
             | [] => "default") :=
  ⟨rfl, fun m h => by cases h; rfl,
   resolve_method_invalid_falls_through (fun _ _ => false) cfgMethodSensitive
     [("method", PyVal.str "bad")] (PyVal.str "bad") rfl
     (fun m h => by cases h; rfl)⟩

/-! ### Lineage edges (`GenericRunner._create_edges`) -/

/-- `GenericRunner._create_edges` (generic_runner.py, lines 976–1006),
written as the source does: start from an empty list, push one edge per
input asset, then the Results edge, then the log edge.  The
`datetime.utcnow()` timestamp is passed in explicitly. -/
def _create_edges (timestamp : String) (run_obj : Run) (input_assets : List Asset)
    (results_asset : Asset) (log_artifact : Asset) : List Edge :=
  (input_assets.foldl
    (fun edges asset =>
      edges ++ [Edge.mk asset.id run_obj.id
        (if asset.type = "System" then "USES" else "CONFIGURES") timestamp])
    []) ++
  [Edge.mk run_obj.id results_asset.id "PRODUCES" timestamp] ++
  [Edge.mk run_obj.id log_artifact.id "LOGS" timestamp]

theorem foldl_push_eq_map {α β : Type} (f : α → β) :
    ∀ (l : List α) (init : List β),
      l.foldl (fun acc a => acc ++ [f a]) init = init ++ l.map f := by
  intro l
  induction l with
  | nil => simp
  | cons x xs ih => intro init; simp [ih]

/-- C8: lineage edge relations and order.  The edge list of `_create_edges`
is exactly: one edge per input asset from the asset to the run (`USES` for
System-kind assets, `CONFIGURES` otherwise, in input order), then the run →
Results edge (`PRODUCES`), then the run → log-artifact edge (`LOGS`). -/
theorem create_edges_relations_and_order (timestamp : String) (run_obj : Run)
    (input_assets : List Asset) (results_asset log_artifact : Asset) :
    _create_edges timestamp run_obj input_assets results_asset log_artifact =
      input_assets.map
        (fun asset => Edge.mk asset.id run_obj.id
          (if asset.type = "System" then "USES" else "CONFIGURES") timestamp) ++
      [Edge.mk run_obj.id results_asset.id "PRODUCES" timestamp,
       Edge.mk run_obj.id log_artifact.id "LOGS" timestamp] := by
  simp [_create_edges, foldl_push_eq_map]

/-! ### Template context construction (`GenericRunner._build_template_context`)

Lines 529–542 of generic_runner.py: the fixed `timestamp`/`seed` layer, the
caller parameters, then parameter-alias resolution.  The `context_builders`
loop (lines 544–564) applies only to configurations declaring
`context_builders`; such configurations are outside this model. -/

/-- Python dict-literal merge `{**base, **overrides}`. -/
def dictUpdate {β : Type} (base overrides : List (String × β)) :
    List (String × β) :=
  overrides.foldl (fun acc kv => dictInsert acc kv.1 kv.2) base

/-- The body of the alias-resolution loop for one `parameter_mapping` entry
(generic_runner.py, lines 539–542): for each alias in order, if the alias is
present in `params` and the canonical name is not yet in the context, bind
the canonical name to the alias's value. -/
def applyAliasEntry (params ctx : List (String × PyVal)) (canonical : String)
    (aliases : List String) : List (String × PyVal) :=
  aliases.foldl
    (fun context aliasName =>
      match params.lookup aliasName with
      | some v =>
        if (context.lookup canonical).isSome then context
        else dictInsert context canonical v
      | Option.none => context)
    ctx

/-- `GenericRunner._build_template_context` (generic_runner.py, lines
529–542): fixed values, then all parameters verbatim, then alias
resolution.  `asset_map` is accepted, as in the source, but never read. -/
def _build_template_context (timestamp : String) (config : Config)
    (_asset_map : List (String × Asset)) (params : List (String × PyVal)) :
    List (String × PyVal) :=
  let context :=
    dictUpdate [("timestamp", PyVal.str timestamp), ("seed", PyVal.int 12345)]
      params
  config.parameter_mapping.foldl
    (fun ctx cm => applyAliasEntry params ctx cm.1 cm.2) context

theorem dictInsert_lookup_self {β : Type} (k : String) (v : β) :
    ∀ d : List (String × β), (dictInsert d k v).lookup k = some v := by
  intro d
  induction d with
  | nil => simp [dictInsert, List.lookup]
  | cons kv rest ih =>
    obtain ⟨k2, v2⟩ := kv
    by_cases hk : k = k2
    · subst hk; simp [dictInsert, List.lookup]
    · have hbeq : (k == k2) = false := beq_eq_false_iff_ne.mpr hk
      simp [dictInsert, hk, List.lookup, hbeq, ih]

theorem dictInsert_lookup_ne {β : Type} (k k' : String) (v : β) (hne : k' ≠ k) :
    ∀ d : List (String × β), (dictInsert d k v).lookup k' = d.lookup k' := by
  intro d
  have hbeq : (k' == k) = false := beq_eq_false_iff_ne.mpr hne
  induction d with
  | nil => simp [dictInsert, List.lookup, hbeq]
  | cons kv rest ih =>
    obtain ⟨k2, v2⟩ := kv
    by_cases hk : k = k2
    · subst hk; simp [dictInsert, List.lookup, hbeq]
    · by_cases hk2 : k' = k2
      · subst hk2
        have hb2 : (k' == k') = true := beq_self_eq_true k'
        simp [dictInsert, hk, List.lookup, hb2]
      · have hb2 : (k' == k2) = false := beq_eq_false_iff_ne.mpr hk2
        simp [dictInsert, hk, List.lookup, hb2, ih]

theorem applyAliasEntry_lookup_ne (params : List (String × PyVal)) (c k : String)
    (hne : k ≠ c) :
    ∀ (aliases : List String) (ctx : List (String × PyVal)),
      (applyAliasEntry params ctx c aliases).lookup k = ctx.lookup k := by
  intro aliases
  induction aliases with
  | nil => intro ctx; rfl
  | cons a rest ih =>
    intro ctx
    simp only [applyAliasEntry, List.foldl_cons]
    cases hpa : params.lookup a with
    | none => exact ih ctx
    | some v =>
      by_cases hc : (ctx.lookup c).isSome
      · simp only [hc, if_true]
        exact ih ctx
      · simp only [hc, if_false, Bool.false_eq_true]
        show (applyAliasEntry params (dictInsert ctx c v) c rest).lookup k =
          ctx.lookup k
        rw [ih (dictInsert ctx c v), dictInsert_lookup_ne c k v hne ctx]

theorem applyAliasEntry_preserves_some (params : List (String × PyVal))
    (c k : String) :
    ∀ (aliases : List String) (ctx : List (String × PyVal)),
      (ctx.lookup k).isSome →
      (applyAliasEntry params ctx c aliases).lookup k = ctx.lookup k := by
  intro aliases
  induction aliases with
  | nil => intro ctx _; rfl
  | cons a rest ih =>
    intro ctx hk
    simp only [applyAliasEntry, List.foldl_cons]
    cases hpa : params.lookup a with
    | none => exact ih ctx hk
    | some v =>
      by_cases hc : (ctx.lookup c).isSome
      · simp only [hc, if_true]
        exact ih ctx hk
      · simp only [hc, if_false, Bool.false_eq_true]
        have hkc : k ≠ c := by
          intro h; subst h; rw [hk] at hc; exact hc rfl
        have h1 : (dictInsert ctx c v).lookup k = ctx.lookup k :=
          dictInsert_lookup_ne c k v hkc ctx
        have h2 : ((dictInsert ctx c v).lookup k).isSome := by rw [h1]; exact hk
        show (applyAliasEntry params (dictInsert ctx c v) c rest).lookup k =
          ctx.lookup k
        rw [ih _ h2, h1]

theorem applyAliasEntry_sets (params : List (String × PyVal)) (c : String) :
    ∀ (aliases : List String) (ctx : List (String × PyVal)) (a0 : String),
      ctx.lookup c = Option.none →
      aliases.find? (fun a => (params.lookup a).isSome) = some a0 →
      (applyAliasEntry params ctx c aliases).lookup c = params.lookup a0 := by
  intro aliases
  induction aliases with
  | nil => intro ctx a0 _ hfind; simp at hfind
  | cons a rest ih =>
    intro ctx a0 hnone hfind
    simp only [applyAliasEntry, List.foldl_cons]
    cases hpa : params.lookup a with
    | none =>
      have hp : ((params.lookup a).isSome) = false := by rw [hpa]; rfl
      rw [List.find?_cons_of_neg _ (by simp [hp])] at hfind
      exact ih ctx a0 hnone hfind
    | some v =>
      have hp : ((params.lookup a).isSome) = true := by rw [hpa]; rfl
      rw [List.find?_cons_of_pos _ (by simp [hp])] at hfind
      cases hfind
      have hc : ((ctx.lookup c).isSome) = false := by rw [hnone]; rfl
      simp only [hc, if_false, Bool.false_eq_true]
      have h1 : (dictInsert ctx c v).lookup c = some v := dictInsert_lookup_self c v ctx
      show (applyAliasEntry params (dictInsert ctx c v) c rest).lookup c =
        params.lookup a
      rw [applyAliasEntry_preserves_some params c c rest (dictInsert ctx c v)
        (by rw [h1]; rfl), h1, hpa]

theorem aliasFold_preserves_some (params : List (String × PyVal)) :
    ∀ (pm : List (String × List String)) (ctx : List (String × PyVal))
      (k : String), (ctx.lookup k).isSome →
      ((pm.foldl (fun ctx cm => applyAliasEntry params ctx cm.1 cm.2)
          ctx).lookup k) = ctx.lookup k := by
  intro pm
  induction pm with
  | nil => intro ctx k _; rfl
  | cons cm rest ih =>
    intro ctx k hk
    simp only [List.foldl_cons]
    have h1 : (applyAliasEntry params ctx cm.1 cm.2).lookup k = ctx.lookup k :=
      applyAliasEntry_preserves_some params cm.1 k cm.2 ctx hk
    rw [ih _ k (by rw [h1]; exact hk), h1]

theorem aliasFold_lookup_ne (params : List (String × PyVal)) (k : String) :
    ∀ (pm : List (String × List String)) (ctx : List (String × PyVal)),
      (∀ cm ∈ pm, cm.1 ≠ k) →
      ((pm.foldl (fun ctx cm => applyAliasEntry params ctx cm.1 cm.2)
          ctx).lookup k) = ctx.lookup k := by
  intro pm
  induction pm with
  | nil => intro ctx _; rfl
  | cons cm rest ih =>
    intro ctx hne
    simp only [List.foldl_cons]
    rw [ih _ (fun cm2 h => hne cm2 (List.mem_cons_of_mem _ h)),
      applyAliasEntry_lookup_ne params cm.1 k
        (fun h => hne cm (List.mem_cons_self _ _) h.symm) cm.2 ctx]

theorem dictUpdate_lookup_none {β : Type} (k : String) :
    ∀ (overrides base : List (String × β)), base.lookup k = Option.none →
      overrides.lookup k = Option.none →
      (dictUpdate base overrides).lookup k = Option.none := by
  intro overrides
  induction overrides with
  | nil => intro base hb _; exact hb
  | cons kv rest ih =>
    intro base hb ho
    obtain ⟨k2, v2⟩ := kv
    have hk2 : k ≠ k2 := by
      intro h; subst h
      simp [List.lookup] at ho
    have hbeq : (k == k2) = false := beq_eq_false_iff_ne.mpr hk2
    simp only [List.lookup, hbeq] at ho
    simp only [dictUpdate, List.foldl_cons]
    exact ih (dictInsert base k2 v2)
      (by rw [dictInsert_lookup_ne k2 k v2 hk2]; exact hb) ho

/-- C7: parameter-alias resolution in `_build_template_context`.  For every
`parameter_mapping` entry `(canonical, aliases)` (mapping keys distinct, as
in any JSON document), if the canonical key is absent from the earlier
context layers (parameters and the fixed `timestamp`/`seed` values) and some
alias is present in `params`, the context binds the canonical name to the
value of the first present alias; and no key set by an earlier layer is ever
overwritten by alias resolution. -/
theorem build_context_alias_resolution (timestamp : String) (config : Config)
    (asset_map : List (String × Asset)) (params : List (String × PyVal))
    (canonical : String) (aliases : List String) (a0 : String)
    (hmem : (canonical, aliases) ∈ config.parameter_mapping)
    (hnd : (config.parameter_mapping.map Prod.fst).Nodup)
    (hcp : params.lookup canonical = Option.none)
    (ht : canonical ≠ "timestamp") (hs : canonical ≠ "seed")
    (hfind : aliases.find? (fun a => (params.lookup a).isSome) = some a0) :
    ((_build_template_context timestamp config asset_map params).lookup
        canonical = params.lookup a0 ∧ (params.lookup a0).isSome) ∧
    ∀ k : String,
      ((dictUpdate [("timestamp", PyVal.str timestamp),
          ("seed", PyVal.int 12345)] params).lookup k).isSome →
      (_build_template_context timestamp config asset_map params).lookup k =
        (dictUpdate [("timestamp", PyVal.str timestamp),
          ("seed", PyVal.int 12345)] params).lookup k := by
  have hsome : (params.lookup a0).isSome := by
    have := List.find?_some hfind
    simpa using this
  obtain ⟨pre, post, hsplit⟩ := List.append_of_mem hmem
  constructor
  · constructor
    · have hinit : (dictUpdate [("timestamp", PyVal.str timestamp),
          ("seed", PyVal.int 12345)] params).lookup canonical = Option.none := by
        apply dictUpdate_lookup_none canonical params _ _ hcp
        have hb1 : (canonical == "timestamp") = false := beq_eq_false_iff_ne.mpr ht
        have hb2 : (canonical == "seed") = false := beq_eq_false_iff_ne.mpr hs
        simp [List.lookup, hb1, hb2]
      have hkeys := hnd
      rw [hsplit, List.map_append, List.map_cons] at hkeys
      have hpre : ∀ cm ∈ pre, cm.1 ≠ canonical := by
        intro cm hm h
        have h1 : cm.1 ∈ pre.map Prod.fst := List.mem_map_of_mem Prod.fst hm
        rw [h] at h1
        rcases List.nodup_append.mp hkeys with ⟨_, _, hdisj⟩
        exact hdisj h1 (List.mem_cons_self _ _)
      have hpost : ∀ cm ∈ post, cm.1 ≠ canonical := by
        intro cm hm h
        have h1 : cm.1 ∈ post.map Prod.fst := List.mem_map_of_mem Prod.fst hm
        rw [h] at h1
        rcases List.nodup_append.mp hkeys with ⟨_, hc, _⟩
        rcases List.nodup_cons.mp hc with ⟨hnotin, _⟩
        exact hnotin h1
      simp only [_build_template_context, hsplit, List.foldl_append,
        List.foldl_cons]
      rw [aliasFold_preserves_some params post _ canonical
          (by rw [applyAliasEntry_sets params canonical aliases _ a0
              (by rw [aliasFold_lookup_ne params canonical pre _ hpre]
                  exact hinit) hfind]
              exact hsome),
        applyAliasEntry_sets params canonical aliases _ a0
          (by rw [aliasFold_lookup_ne params canonical pre _ hpre]
              exact hinit) hfind]
    · exact hsome
  · intro k hk
    simp only [_build_template_context]
    exact aliasFold_preserves_some params config.parameter_mapping _ k hk

/-- Witness for C7: the specification's scenario — canonical `T` with alias
`temperature`, caller supplies `{"temperature": 300}` — yields a context
with `T == 300`. -/
theorem build_context_alias_resolution_witness :
    (("T", ["temperature"]) ∈
      (Config.mk "demo" [] [] [] [] [("T", ["temperature"])] []).parameter_mapping) ∧
    ((Config.mk "demo" [] [] [] [] [("T", ["temperature"])]
        []).parameter_mapping.map Prod.fst).Nodup ∧
    ([("temperature", PyVal.int 300)] : List (String × PyVal)).lookup "T" =
      Option.none ∧
    ("T" : String) ≠ "timestamp" ∧ ("T" : String) ≠ "seed" ∧
    (["temperature"].find?
      (fun a =>
        (([("temperature", PyVal.int 300)] :
          List (String × PyVal)).lookup a).isSome) = some "temperature") ∧
    (_build_template_context "2024-01-01T00:00:00"
        (Config.mk "demo" [] [] [] [] [("T", ["temperature"])] []) []
        [("temperature", PyVal.int 300)]).lookup "T" = some (PyVal.int 300) := by
  refine ⟨by decide, by decide, rfl, by decide, by decide, rfl, ?_⟩
  have h := (build_context_alias_resolution "2024-01-01T00:00:00"
    (Config.mk "demo" [] [] [] [] [("T", ["temperature"])] []) []
    [("temperature", PyVal.int 300)] "T" ["temperature"] "temperature"
    (by decide) (by decide) rfl (by decide) (by decide) rfl).1.1
  rw [h]; rfl

/-! ### Template rendering (`GenericRunner._render_template`)

`_render_template` substitutes with `string.Template(template)
.safe_substitute(**context)`.  The CPython `string.Template` scanner is
modelled character by character below: at each `$` the scanner matches, in
order, `$$` (an escaped delimiter), `$name` (ASCII identifier), `${name}`,
or an invalid lone `$`; a recognized name is replaced by `str` of its
context value when the context has it and the whole match is kept verbatim
otherwise, and an invalid match is kept verbatim too.  `safe_substitute`
never raises on missing names.  Regex-driven `template_post_processors`
(config-driven `re.sub`) are outside the model; the property below is about
configurations without them. -/

/-- Start character of a Python identifier (the scanner's ASCII `idpattern`). -/
def isIdentStart (c : Char) : Bool := c = '_' || c.isAlpha

/-- Continuation character of a Python identifier. -/
def isIdentChar (c : Char) : Bool := isIdentStart c || c.isDigit

/-- `s` is a valid placeholder identifier. -/
def validIdent (s : String) : Bool :=
  match s.data with
  | [] => false
  | c :: cs => isIdentStart c && cs.all isIdentChar

/-- `string.Template(...).safe_substitute(**mapping)` on a character list.
At a `$` the scanner recognizes, in the pattern's order: an escaped `$$`; a
braced `${ident}` (substituted via `str` when the context knows the name,
kept verbatim otherwise); a bare `$ident` likewise; and otherwise an invalid
lone `$`, kept verbatim, with scanning resuming right after it. -/
def safeSubstChars (mapping : List (String × PyVal)) : List Char → List Char
  | [] => []
  | ['$'] => ['$']
  | '$' :: '$' :: rest2 => '$' :: safeSubstChars mapping rest2
  | '$' :: '{' :: rest2 =>
    let name := rest2.takeWhile isIdentChar
    let rest3 := rest2.dropWhile isIdentChar
    if h : name ≠ [] ∧ isIdentStart (name.headD ' ') = true ∧
        rest3.headD ' ' = '}' then
      match mapping.lookup (String.mk name) with
      | some v => (pyStr v).data ++ safeSubstChars mapping rest3.tail
      | Option.none =>
        '$' :: '{' :: (name ++ '}' :: safeSubstChars mapping rest3.tail)
    else '$' :: '{' :: safeSubstChars mapping rest2
  | '$' :: c :: rest2 =>
    if isIdentStart c then
      match mapping.lookup (String.mk (c :: rest2.takeWhile isIdentChar)) with
      | some v => (pyStr v).data ++ safeSubstChars mapping (rest2.dropWhile isIdentChar)
      | Option.none =>
        '$' :: c :: (rest2.takeWhile isIdentChar ++
          safeSubstChars mapping (rest2.dropWhile isIdentChar))
    else '$' :: c :: safeSubstChars mapping rest2
  | c :: rest => c :: safeSubstChars mapping rest
termination_by l => l.length
decreasing_by
  all_goals simp_wf
  all_goals try omega
  all_goals
    (have h1 := (List.dropWhile_sublist (l := rest2) isIdentChar).length_le
     try simp only [List.length_tail]
     omega)

/-- `str.replace(old, new)` on character lists (including CPython's
empty-pattern behaviour of inserting the replacement at every boundary). -/
def replaceChars (s pat rep : List Char) : List Char :=
  if hpat : pat = [] then
    rep ++ s.flatMap (fun c => c :: rep)
  else if hpre : pat.isPrefixOf s then
    rep ++ replaceChars (s.drop pat.length) pat rep
  else
    match s with
    | [] => []
    | c :: t => c :: replaceChars t pat rep
termination_by s.length
decreasing_by
  all_goals simp_wf
  all_goals
    (try (have h1 : pat <+: s := List.isPrefixOf_iff_prefix.mp hpre
          have h2 : pat.length ≤ s.length := h1.length_le
          have h3 : 0 < pat.length := List.length_pos.mpr hpat)
     omega)

/-- `GenericRunner._render_template` (generic_runner.py, lines 500–527):
build the context, apply the configured escape-sequence replacements, then
`safe_substitute` the context into the template.  (The `try/except` around
the substitution is dead in this model: the modelled substitution is total
and never raises.) -/
def _render_template (timestamp : String) (config : Config)
    (asset_map : List (String × Asset)) (params : List (String × PyVal))
    (template : String) : String :=
  let context := _build_template_context timestamp config asset_map params
  let escaped := config.template_syntax_escapes.foldl
    (fun t es => replaceChars t es.1.data es.2.data) template.data
  String.mk (safeSubstChars context escaped)

theorem safeSubst_nil (m : List (String × PyVal)) : safeSubstChars m [] = [] := by
  simp [safeSubstChars]

theorem safeSubst_cons_ne (m : List (String × PyVal)) (c : Char) (cs : List Char)
    (hc : c ≠ '$') : safeSubstChars m (c :: cs) = c :: safeSubstChars m cs := by
  rw [safeSubstChars.eq_def]
  split
  all_goals
    first
    | (rename_i heq
       simp only [List.cons.injEq] at heq
       exact absurd heq.1 hc)
    | (rename_i heq
       simp only [List.cons.injEq] at heq
       rw [heq.1, heq.2])
    | (rename_i heq
       exact absurd heq (by simp))

theorem safeSubst_append_no_dollar (m : List (String × PyVal)) :
    ∀ (pre suf : List Char), (∀ c ∈ pre, c ≠ '$') →
      safeSubstChars m (pre ++ suf) = pre ++ safeSubstChars m suf := by
  intro pre
  induction pre with
  | nil => intro suf _; rfl
  | cons c t ih =>
    intro suf hpre
    rw [List.cons_append,
      safeSubst_cons_ne m c _ (hpre c (List.mem_cons_self _ _)),
      ih suf (fun c2 h2 => hpre c2 (List.mem_cons_of_mem _ h2))]
    rfl

theorem takeWhile_ident_append :
    ∀ (cs rest : List Char), (∀ c ∈ cs, isIdentChar c = true) →
      (∀ c, rest.head? = some c → isIdentChar c = false) →
      (cs ++ rest).takeWhile isIdentChar = cs ∧
      (cs ++ rest).dropWhile isIdentChar = rest := by
  intro cs
  induction cs with
  | nil =>
    intro rest _ hrest
    cases rest with
    | nil => exact ⟨rfl, rfl⟩
    | cons r rs =>
      have hr : isIdentChar r = false := hrest r rfl
      simp [List.takeWhile, List.dropWhile, hr]
  | cons c t ih =>
    intro rest hcs hrest
    have hc : isIdentChar c = true := hcs c (List.mem_cons_self _ _)
    obtain ⟨h1, h2⟩ := ih rest (fun c2 h => hcs c2 (List.mem_cons_of_mem _ h)) hrest
    constructor
    · rw [List.cons_append, List.takeWhile_cons, hc, if_pos rfl, h1]
    · rw [List.cons_append, List.dropWhile_cons, hc, if_pos rfl, h2]

theorem identStart_ne (c : Char) (hc : isIdentStart c = true) :
    c ≠ '$' ∧ c ≠ '{' := by
  constructor <;> intro h <;> subst h <;> simp [isIdentStart, Char.isAlpha,
    Char.isUpper, Char.isLower] at hc

/-- A valid identifier decomposes into a start character and continuation
characters. -/
theorem validIdent_decomp (k : String) (h : validIdent k = true) :
    ∃ c cs, k.data = c :: cs ∧ isIdentStart c = true ∧
      ∀ c2 ∈ cs, isIdentChar c2 = true := by
  unfold validIdent at h
  cases hk : k.data with
  | nil => rw [hk] at h; simp at h
  | cons c cs =>
    rw [hk] at h
    simp only [Bool.and_eq_true, List.all_eq_true] at h
    exact ⟨c, cs, rfl, h.1, fun c2 h2 => h.2 c2 h2⟩

theorem safeSubst_braced_missing (m : List (String × PyVal)) (k : String)
    (post : List Char) (hvalid : validIdent k = true)
    (hmiss : m.lookup k = Option.none) :
    safeSubstChars m ('$' :: '{' :: (k.data ++ '}' :: post)) =
      '$' :: '{' :: (k.data ++ '}' :: safeSubstChars m post) := by
  obtain ⟨c, cs, hk, hstart, hcs⟩ := validIdent_decomp k hvalid
  have hident : ∀ c2 ∈ k.data, isIdentChar c2 = true := by
    rw [hk]
    intro c2 h2
    rcases List.mem_cons.mp h2 with h3 | h3
    · subst h3; simp [isIdentChar, hstart]
    · exact hcs c2 h3
  obtain ⟨htake, hdrop⟩ := takeWhile_ident_append k.data ('}' :: post) hident
    (by intro c2 h2
        simp only [List.head?_cons, Option.some.injEq] at h2
        subst h2
        decide)
  rw [safeSubstChars.eq_def]
  split
  · rename_i heq; simp at heq
  · rename_i heq; simp at heq
  · rename_i heq; simp at heq
  · -- the '$' :: '{' :: rest2 branch
    rename_i rest2 heq
    simp only [List.cons.injEq] at heq
    rw [← heq.2.2]
    simp only [htake, hdrop, List.headD_cons, List.tail_cons]
    rw [dif_pos ⟨by rw [hk]; simp, by rw [hk]; simpa using hstart, by trivial⟩]
    have hmk : String.mk k.data = k := rfl
    rw [hmk, hmiss]
  · rename_i hns hnb heq
    simp only [List.cons.injEq] at heq
    exact (hnb heq.2.1.symm).elim
  · rename_i hn1 hn2 hnb hnc heq
    simp only [List.cons.injEq] at heq
    exact (hnb (k.data ++ '}' :: post) heq.1.symm heq.2.symm).elim

theorem safeSubst_named_missing (m : List (String × PyVal)) (k : String)
    (post : List Char) (hvalid : validIdent k = true)
    (hmiss : m.lookup k = Option.none)
    (hpost : ∀ c, post.head? = some c → isIdentChar c = false) :
    safeSubstChars m ('$' :: (k.data ++ post)) =
      '$' :: (k.data ++ safeSubstChars m post) := by
  obtain ⟨c, cs, hk, hstart, hcs⟩ := validIdent_decomp k hvalid
  have hne := identStart_ne c hstart
  obtain ⟨htake, hdrop⟩ := takeWhile_ident_append cs post hcs hpost
  rw [hk]
  rw [safeSubstChars.eq_def]
  split
  · rename_i heq; simp at heq
  · rename_i heq; simp at heq
  · rename_i rest2 heq
    have h9 : c = '$' ∧ cs ++ post = rest2 := by simpa using heq
    exact absurd h9.1 hne.1
  · rename_i rest2 heq
    have h9 : c = '{' ∧ cs ++ post = rest2 := by simpa using heq
    exact absurd h9.1 hne.2
  · rename_i x0 c2 rest2 hns hnb heq
    have h9 : c = c2 ∧ cs ++ post = rest2 := by simpa using heq
    obtain ⟨hc2, hrest⟩ := h9
    subst hc2
    subst hrest
    rw [if_pos hstart, htake, hdrop]
    have hmk : String.mk (c :: cs) = k := by rw [← hk]
    rw [hmk, hmiss]
    simp
  · rename_i hn1 hn2 hnb hnc heq
    simp only [List.cons.injEq] at heq
    exact (hnc c (cs ++ post) heq.1.symm heq.2.symm).elim

/-- C6: safe substitution.  Rendering a template that contains a placeholder
`${k}` (or `$k`) against a context lacking the key `k` leaves that
placeholder verbatim and unchanged, substitution continuing after it; no
error is raised (the modelled `safe_substitute` is a total function).  The
placeholder occurrence is a real one: the text before it contains no other
`$`, the configuration declares no escape sequences (and, per the model, no
regex post-processors), and in the `$k` form the placeholder is not followed
by a further identifier character. -/
theorem render_template_safe_substitution
    (timestamp : String) (config : Config) (asset_map : List (String × Asset))
    (params : List (String × PyVal)) (k : String) (pre post : String)
    (hesc : config.template_syntax_escapes = [])
    (hvalid : validIdent k = true)
    (hmiss : (_build_template_context timestamp config asset_map params).lookup k
      = Option.none)
    (hpre : ∀ c ∈ pre.data, c ≠ '$') :
    _render_template timestamp config asset_map params
        (pre ++ "$\x7b" ++ k ++ "\x7d" ++ post) =
      pre ++ "$\x7b" ++ k ++ "\x7d" ++
        String.mk (safeSubstChars
          (_build_template_context timestamp config asset_map params)
          post.data) ∧
    ((∀ c, post.data.head? = some c → isIdentChar c = false) →
      _render_template timestamp config asset_map params
          (pre ++ "$" ++ k ++ post) =
        pre ++ "$" ++ k ++
          String.mk (safeSubstChars
            (_build_template_context timestamp config asset_map params)
            post.data)) := by
  constructor
  · apply String.ext
    simp only [_render_template, hesc, List.foldl_nil, String.data_append,
      List.append_assoc]
    rw [safeSubst_append_no_dollar _ pre.data _ hpre]
    congr 1
    have h3 : (['$', '{'] : List Char) ++ (k.data ++ (['}'] ++ post.data)) =
        '$' :: '{' :: (k.data ++ '}' :: post.data) := by simp
    rw [h3, safeSubst_braced_missing _ k post.data hvalid hmiss]
    simp
  · intro hpost
    apply String.ext
    simp only [_render_template, hesc, List.foldl_nil, String.data_append,
      List.append_assoc]
    rw [safeSubst_append_no_dollar _ pre.data _ hpre]
    congr 1
    have h3 : (['$'] : List Char) ++ (k.data ++ post.data) =
        '$' :: (k.data ++ post.data) := by simp
    rw [h3, safeSubst_named_missing _ k post.data hvalid hmiss hpost]
    simp

/-- Witness for C6 at a concrete context, template and unknown key. -/
theorem render_template_safe_substitution_witness :
    (Config.mk "demo" [] [] [] [] [] []).template_syntax_escapes = [] ∧
    validIdent "missing" = true ∧
    (_build_template_context "t0" (Config.mk "demo" [] [] [] [] [] []) []
        [("x", PyVal.int 1)]).lookup "missing" = Option.none ∧
    (∀ c ∈ ("a " : String).data, c ≠ '$') ∧
    _render_template "t0" (Config.mk "demo" [] [] [] [] [] []) []
        [("x", PyVal.int 1)] ("a " ++ "$\x7b" ++ "missing" ++ "\x7d" ++ " b") =
      "a " ++ "$\x7b" ++ "missing" ++ "\x7d" ++
        String.mk (safeSubstChars
          (_build_template_context "t0" (Config.mk "demo" [] [] [] [] [] []) []
            [("x", PyVal.int 1)]) (" b" : String).data) :=
  ⟨rfl, by decide, rfl, by decide,
   (render_template_safe_substitution "t0" (Config.mk "demo" [] [] [] [] [] [])
     [] [("x", PyVal.int 1)] "missing" "a " " b" rfl (by decide) rfl
     (by decide)).1⟩

/-! ### The input-template phase of `GenericRunner.run` (lines 74–188)

When the resolved method declares an `input_template` or `template_file`,
`run` merges the method's `parameter_defaults` with the caller's params,
injects the derived parameters of lines 102–151 (`supercell_x/y/z`,
`temp_single`, `mass_commands`, `atom_types`, `pair_coeff_commands`), and
renders the template with `str.format` — whose `KeyError` on a missing
placeholder is converted to a `ValueError` naming the missing parameter and
listing the available keys; the outer handler (lines 329–333) then marks the
Run `error` and re-raises.  The filesystem read of `template_file` is passed
in as `readFile`.  Modelling notes: the Kelvin→LJ conversion of line 115 is
kept at integer precision (CPython computes a float there), and `masses` /
`pair_coeffs` values are modelled for lists (CPython would also iterate
strings or dicts); no property below inspects those values. -/

/-- Python `d.get(k)` on a modelled value (dicts only). -/
def pvGet (v : PyVal) (k : String) : Option PyVal :=
  match v with
  | PyVal.dict kvs => kvs.lookup k
  | _ => Option.none

/-- `method_config.get('input_template')` (`None` when absent). -/
def mcInputTemplate (mc : PyVal) : PyVal := (pvGet mc "input_template").getD PyVal.none

/-- `method_config.get('template_file')` (`None` when absent). -/
def mcTemplateFile (mc : PyVal) : PyVal := (pvGet mc "template_file").getD PyVal.none

/-- `max(1.0, temp_k / 300.0)` of line 115, at integer precision. -/
def tempLJ : PyVal → Except String PyVal
  | PyVal.int n => Except.ok (PyVal.int (max 1 (n / 300)))
  | PyVal.bool _ => Except.ok (PyVal.int 1)
  | _ => Except.error "TypeError: unsupported operand type for /"

/-- `coeff.get(key, default)` rendered into the f-string of line 146. -/
def coeffField (c : List (String × PyVal)) (k dflt : String) : String :=
  match c.lookup k with
  | some v => pyStr v
  | Option.none => dflt

/-- The `pair_coeff` command lines of lines 139–147. -/
def coeffCommands : List PyVal → Except String (List String)
  | [] => Except.ok []
  | PyVal.dict c :: rest =>
    (coeffCommands rest).map fun others =>
      ("pair_coeff " ++ coeffField c "i" "1" ++ " " ++ coeffField c "j" "1" ++
        " " ++ coeffField c "epsilon" "1.0" ++ " " ++
        coeffField c "sigma" "1.0") :: others
  | _ :: _ => Except.error "AttributeError: get"

/-- Lines 75–151 of `GenericRunner.run`: the format dictionary is the
method's `parameter_defaults` updated with the caller's params, extended
with the derived parameters. -/
def buildFormatParams (mc : PyVal) (params : List (String × PyVal)) :
    Except String (List (String × PyVal)) :=
  match
    (match pvGet mc "parameter_defaults" with
     | Option.none => Except.ok ([] : List (String × PyVal))
     | some (PyVal.dict kvs) => Except.ok kvs
     | some _ => Except.error "TypeError: parameter_defaults") with
  | Except.error e => Except.error e
  | Except.ok defaults =>
    let fp := dictUpdate defaults params
    let fp := match fp.lookup "supercell" with
      | some (PyVal.list (a :: b :: c :: _)) =>
        dictInsert (dictInsert (dictInsert fp "supercell_x" a) "supercell_y" b)
          "supercell_z" c
      | _ => fp
    match
      (match fp.lookup "temperature" with
       | some (PyVal.list []) => Except.error "IndexError: list index out of range"
       | some (PyVal.list (t :: _)) =>
         (tempLJ t).map fun v => dictInsert fp "temp_single" v
       | _ => Except.ok fp) with
    | Except.error e => Except.error e
    | Except.ok fp =>
      match
        (match fp.lookup "masses" with
         | some (PyVal.list ms) =>
           let cmds := String.intercalate "\\n"
             ((List.enumFrom 1 ms).map fun (im : Nat × PyVal) =>
               "mass " ++ toString im.1 ++ " " ++ pyStr im.2)
           let fp := dictInsert fp "mass_commands" (PyVal.str cmds)
           Except.ok (if (fp.lookup "atom_types").isSome then fp
             else dictInsert fp "atom_types" (PyVal.int (Int.ofNat ms.length)))
         | some _ => Except.error "TypeError: masses is not iterable"
         | Option.none =>
           let fp := dictInsert fp "mass_commands" (PyVal.str "mass 1 1.0")
           Except.ok (if (fp.lookup "atom_types").isSome then fp
             else dictInsert fp "atom_types" (PyVal.int 1))) with
      | Except.error e => Except.error e
      | Except.ok fp =>
        match fp.lookup "pair_coeffs" with
        | some (PyVal.list cf) =>
          (coeffCommands cf).map fun cmds =>
            dictInsert fp "pair_coeff_commands"
              (PyVal.str (String.intercalate "\\n" cmds))
        | some _ => Except.error "TypeError: pair_coeffs is not iterable"
        | Option.none =>
          Except.ok (dictInsert fp "pair_coeff_commands"
            (PyVal.str "pair_coeff 1 1 1.0 1.0"))

/-- Lines 157–174: select the template text — the `template_file` contents
when that key is truthy (a missing file becomes the explicit `ValueError`),
otherwise the inline `input_template`, joining list-form templates with
newlines. -/
def templateContentOf (readFile : String → Except String String) (mc : PyVal) :
    Except String (List Char) :=
  if pvTruthy (mcTemplateFile mc) then
    match mcTemplateFile mc with
    | PyVal.str path =>
      match readFile path with
      | Except.ok s => Except.ok s.data
      | Except.error _ => Except.error ("Template file not found: " ++ path)
    | _ => Except.error "TypeError: template_file path"
  else
    match mcInputTemplate mc with
    | PyVal.str s => Except.ok s.data
    | PyVal.list xs =>
      (strLines xs).map fun ls => (String.intercalate "\n" ls).data
    | _ => Except.error "AttributeError: replace"
where
  strLines : List PyVal → Except String (List String)
    | [] => Except.ok []
    | PyVal.str s :: rest => (strLines rest).map (s :: ·)
    | _ :: _ => Except.error "TypeError: sequence item is not str"

/-- One parsed piece of a `str.format` template. -/
inductive FmtChunk where
  | lit : Char → FmtChunk
  | field : String → FmtChunk
  deriving DecidableEq

/-- The `str.format` template parser: `{{`/`}}` escapes, `{name}` fields
(names taken verbatim up to the closing brace; attribute/index/format-spec
syntax inside a field is not modelled), `None` — a `ValueError` in CPython —
for an unterminated `{` or a lone `}`. -/
def parseFmt : List Char → Option (List FmtChunk)
  | [] => some []
  | '{' :: '{' :: rest => (parseFmt rest).map (FmtChunk.lit '{' :: ·)
  | '}' :: '}' :: rest => (parseFmt rest).map (FmtChunk.lit '}' :: ·)
  | '{' :: rest =>
    let name := rest.takeWhile (fun c => !(c = '}'))
    let rest2 := rest.dropWhile (fun c => !(c = '}'))
    if h : rest2.headD ' ' = '}' then
      (parseFmt rest2.tail).map (FmtChunk.field (String.mk name) :: ·)
    else Option.none
  | '}' :: _ => Option.none
  | c :: rest => (parseFmt rest).map (FmtChunk.lit c :: ·)
termination_by l => l.length
decreasing_by
  all_goals simp_wf
  all_goals try omega
  all_goals
    (have h1 := (List.dropWhile_sublist (l := rest) (fun c => !(c = '}'))).length_le
     try simp only [List.length_tail]
     omega)

/-- Substitution of parsed format chunks: each field is replaced by `str` of
its value; a missing field is CPython's `KeyError`, carrying the field
name. -/
def renderFmt (d : List (String × PyVal)) : List FmtChunk → Except String String
  | [] => Except.ok ""
  | FmtChunk.lit c :: rest => (renderFmt d rest).map (fun s => String.mk [c] ++ s)
  | FmtChunk.field name :: rest =>
    match d.lookup name with
    | some v => (renderFmt d rest).map (fun s => pyStr v ++ s)
    | Option.none => Except.error name

/-- The `ValueError` message of line 182. -/
def missingParamMsg (nm : String) (fp : List (String × PyVal)) : String :=
  "Missing parameter in template: '" ++ nm ++ "'. Available: " ++
    pyStr (PyVal.list (fp.map fun kv => PyVal.str kv.1))

/-- Lines 74–188 of `GenericRunner.run` as one step: when a template is
declared, build the format dictionary, load and preprocess the template text
(the `'\\n'`/`'\\"'` unescaping of line 179), and format it; `some content`
on success, `none` when no template is declared. -/
def runInputTemplatePhase (readFile : String → Except String String)
    (mc : PyVal) (params : List (String × PyVal)) : Except String (Option String) :=
  if pvTruthy (mcTemplateFile mc) || pvTruthy (mcInputTemplate mc) then
    match buildFormatParams mc params with
    | Except.error e => Except.error e
    | Except.ok fp =>
      match templateContentOf readFile mc with
      | Except.error e => Except.error e
      | Except.ok tc =>
        match parseFmt (replaceChars (replaceChars tc ['\\', 'n'] ['\n'])
            ['\\', '"'] ['"']) with
        | Option.none => Except.error "ValueError: bad format string"
        | some chunks =>
          match renderFmt fp chunks with
          | Except.error nm => Except.error (missingParamMsg nm fp)
          | Except.ok s => Except.ok (some s)
  else Except.ok Option.none

/-- Lines 329–333 of `GenericRunner.run`: any exception marks the Run
`error`, stamps `ended_at`, and re-raises. -/
def runMarkError (run_obj : Run) (errTime : String) : Run :=
  { run_obj with status := "error", ended_at := some errTime }

/-- The Run record after the input-template phase: untouched on success,
marked `error` when the phase raised. -/
def runAfterTemplatePhase (readFile : String → Except String String)
    (mc : PyVal) (params : List (String × PyVal)) (run_obj : Run)
    (errTime : String) : Run :=
  match runInputTemplatePhase readFile mc params with
  | Except.error _ => runMarkError run_obj errTime
  | Except.ok _ => run_obj

theorem renderFmt_error_of_missing (d : List (String × PyVal)) :
    ∀ chunks : List FmtChunk,
      (∃ f, FmtChunk.field f ∈ chunks ∧ d.lookup f = Option.none) →
      ∃ nm, FmtChunk.field nm ∈ chunks ∧ d.lookup nm = Option.none ∧
        renderFmt d chunks = Except.error nm := by
  intro chunks
  induction chunks with
  | nil =>
    rintro ⟨f, hf, -⟩
    simp at hf
  | cons ch rest ih =>
    rintro ⟨f, hf, hmiss⟩
    match ch with
    | FmtChunk.lit c =>
      have hf2 : FmtChunk.field f ∈ rest := by
        rcases List.mem_cons.mp hf with h | h
        · exact absurd h (by simp)
        · exact h
      obtain ⟨nm, h1, h2, h3⟩ := ih ⟨f, hf2, hmiss⟩
      exact ⟨nm, List.mem_cons_of_mem _ h1, h2,
        by simp [renderFmt, h3, Except.map]⟩
    | FmtChunk.field g =>
      cases hg : d.lookup g with
      | none =>
        exact ⟨g, List.mem_cons_self _ _, hg, by simp [renderFmt, hg]⟩
      | some v =>
        have hf2 : FmtChunk.field f ∈ rest := by
          rcases List.mem_cons.mp hf with h | h
          · have : f = g := by simpa using h
            rw [this, hg] at hmiss
            exact absurd hmiss (by simp)
          · exact h
        obtain ⟨nm, h1, h2, h3⟩ := ih ⟨f, hf2, hmiss⟩
        exact ⟨nm, List.mem_cons_of_mem _ h1, h2,
          by simp [renderFmt, hg, h3, Except.map]⟩

/-- C10 (amended): missing template keys are a hard error.  When the method
declares a template, the format dictionary builds successfully, the template
text loads and parses, and some `{name}` placeholder names a key absent from
that dictionary — the merged defaults-plus-params dictionary *after* the
derived-parameter injection — then `run`'s template phase raises the
`ValueError` naming a missing parameter and listing the available keys
(rather than leaving the placeholder unsubstituted), and the Run is marked
`error`.  The unamended claim, which measures absence against defaults plus
params only, fails on the injected keys: see
`run_input_template_counterexample`. -/
theorem run_input_template_missing_key (readFile : String → Except String String)
    (mc : PyVal) (params fp : List (String × PyVal)) (tc : List Char)
    (chunks : List FmtChunk) (name : String)
    (hdecl : (pvTruthy (mcTemplateFile mc) || pvTruthy (mcInputTemplate mc)) = true)
    (hfp : buildFormatParams mc params = Except.ok fp)
    (htc : templateContentOf readFile mc = Except.ok tc)
    (hparse : parseFmt (replaceChars (replaceChars tc ['\\', 'n'] ['\n'])
      ['\\', '"'] ['"']) = some chunks)
    (hfield : FmtChunk.field name ∈ chunks)
    (hmiss : fp.lookup name = Option.none) :
    (∃ nm, FmtChunk.field nm ∈ chunks ∧ fp.lookup nm = Option.none ∧
       runInputTemplatePhase readFile mc params =
         Except.error (missingParamMsg nm fp)) ∧
    ∀ (run_obj : Run) (errTime : String),
      (runAfterTemplatePhase readFile mc params run_obj errTime).status =
          "error" ∧
      (runAfterTemplatePhase readFile mc params run_obj errTime).ended_at =
          some errTime := by
  obtain ⟨nm, h1, h2, h3⟩ :=
    renderFmt_error_of_missing fp chunks ⟨name, hfield, hmiss⟩
  have hphase : runInputTemplatePhase readFile mc params =
      Except.error (missingParamMsg nm fp) := by
    simp only [runInputTemplatePhase, hdecl, if_true, hfp, htc, hparse, h3]
  refine ⟨⟨nm, h1, h2, hphase⟩, ?_⟩
  intro run_obj errTime
  rw [runAfterTemplatePhase, hphase]
  exact ⟨rfl, rfl⟩

/-- `str.replace` is the identity when the pattern's first character does not
occur in the string. -/
theorem replaceChars_head_not_mem :
    ∀ (s : List Char) (p0 : Char) (pr rep : List Char),
      (∀ c ∈ s, c ≠ p0) → replaceChars s (p0 :: pr) rep = s := by
  intro s
  induction s with
  | nil =>
    intro p0 pr rep _
    rw [replaceChars.eq_def]
    rw [dif_neg (by simp)]
    rw [dif_neg (by simp [List.isPrefixOf])]
  | cons c t ih =>
    intro p0 pr rep h
    rw [replaceChars.eq_def]
    rw [dif_neg (by simp)]
    rw [dif_neg (by
      simp only [List.isPrefixOf, Bool.and_eq_true]
      intro hcontra
      exact absurd (eq_of_beq hcontra.1).symm (h c (List.mem_cons_self _ _)))]
    exact congrArg (fun l => c :: l)
      (ih p0 pr rep (fun c2 h2 => h c2 (List.mem_cons_of_mem _ h2)))

/-- Counterexample to C10 as stated: with an empty `parameter_defaults` and
an empty parameter bag, the key `atom_types` is absent from the merged
defaults-plus-params dictionary, yet rendering the template
`"{atom_types}"` succeeds (the runner injects `atom_types = 1` at line 135)
instead of raising. -/
theorem run_input_template_counterexample :
    (dictUpdate ([] : List (String × PyVal))
        ([] : List (String × PyVal))).lookup "atom_types" = Option.none ∧
    runInputTemplatePhase (fun _ => Except.error "no file")
        (PyVal.dict [("input_template", PyVal.str "\x7batom_types\x7d")]) [] =
      Except.ok (some "1") := by
  refine ⟨rfl, ?_⟩
  have h4a : replaceChars ("\x7batom_types\x7d" : String).data ['\\', 'n'] ['\n'] =
      ("\x7batom_types\x7d" : String).data :=
    replaceChars_head_not_mem _ _ _ _ (by decide)
  have h4b : replaceChars ("\x7batom_types\x7d" : String).data ['\\', '"'] ['"'] =
      ("\x7batom_types\x7d" : String).data :=
    replaceChars_head_not_mem _ _ _ _ (by decide)
  have h5 : parseFmt ("\x7batom_types\x7d" : String).data =
      some [FmtChunk.field "atom_types"] := by
    simp [parseFmt, List.takeWhile, List.dropWhile]
  simp only [runInputTemplatePhase,
    show (pvTruthy (mcTemplateFile
        (PyVal.dict [("input_template", PyVal.str "\x7batom_types\x7d")])) ||
      pvTruthy (mcInputTemplate
        (PyVal.dict [("input_template", PyVal.str "\x7batom_types\x7d")]))) =
      true from by decide, if_true,
    show buildFormatParams
        (PyVal.dict [("input_template", PyVal.str "\x7batom_types\x7d")]) [] =
      Except.ok [("mass_commands", PyVal.str "mass 1 1.0"),
        ("atom_types", PyVal.int 1),
        ("pair_coeff_commands", PyVal.str "pair_coeff 1 1 1.0 1.0")] from rfl,
    show templateContentOf (fun _ => Except.error "no file")
        (PyVal.dict [("input_template", PyVal.str "\x7batom_types\x7d")]) =
      Except.ok ("\x7batom_types\x7d" : String).data from rfl,
    h4a, h4b, h5]
  rfl

/-- Witness for C10's amended theorem: template `"{T} K"`, no defaults, no
parameters — `T` is missing from the (injected-key-extended) format
dictionary, so the phase raises the `ValueError` and the Run errors. -/
theorem run_input_template_missing_key_witness :
    ((pvTruthy (mcTemplateFile (PyVal.dict
        [("input_template", PyVal.str "\x7bT\x7d K")])) ||
      pvTruthy (mcInputTemplate (PyVal.dict
        [("input_template", PyVal.str "\x7bT\x7d K")]))) = true) ∧
    (buildFormatParams (PyVal.dict [("input_template", PyVal.str "\x7bT\x7d K")])
        [] = Except.ok
      [("mass_commands", PyVal.str "mass 1 1.0"), ("atom_types", PyVal.int 1),
       ("pair_coeff_commands", PyVal.str "pair_coeff 1 1 1.0 1.0")]) ∧
    (templateContentOf (fun _ => Except.error "no file")
        (PyVal.dict [("input_template", PyVal.str "\x7bT\x7d K")]) =
      Except.ok ("\x7bT\x7d K" : String).data) ∧
    (parseFmt (replaceChars (replaceChars ("\x7bT\x7d K" : String).data
        ['\\', 'n'] ['\n']) ['\\', '"'] ['"']) =
      some [FmtChunk.field "T", FmtChunk.lit ' ', FmtChunk.lit 'K']) ∧
    (FmtChunk.field "T" ∈
      [FmtChunk.field "T", FmtChunk.lit ' ', FmtChunk.lit 'K']) ∧
    (([("mass_commands", PyVal.str "mass 1 1.0"), ("atom_types", PyVal.int 1),
       ("pair_coeff_commands", PyVal.str "pair_coeff 1 1 1.0 1.0")] :
        List (String × PyVal)).lookup "T" = Option.none) ∧
    (∃ nm, FmtChunk.field nm ∈
        [FmtChunk.field "T", FmtChunk.lit ' ', FmtChunk.lit 'K'] ∧
      ([("mass_commands", PyVal.str "mass 1 1.0"), ("atom_types", PyVal.int 1),
        ("pair_coeff_commands", PyVal.str "pair_coeff 1 1 1.0 1.0")] :
         List (String × PyVal)).lookup nm = Option.none ∧
      runInputTemplatePhase (fun _ => Except.error "no file")
          (PyVal.dict [("input_template", PyVal.str "\x7bT\x7d K")]) [] =
        Except.error (missingParamMsg nm
          [("mass_commands", PyVal.str "mass 1 1.0"), ("atom_types", PyVal.int 1),
           ("pair_coeff_commands", PyVal.str "pair_coeff 1 1 1.0 1.0")])) ∧
    ∀ (run_obj : Run) (errTime : String),
      (runAfterTemplatePhase (fun _ => Except.error "no file")
          (PyVal.dict [("input_template", PyVal.str "\x7bT\x7d K")]) [] run_obj
          errTime).status = "error" ∧
      (runAfterTemplatePhase (fun _ => Except.error "no file")
          (PyVal.dict [("input_template", PyVal.str "\x7bT\x7d K")]) [] run_obj
          errTime).ended_at = some errTime := by
  have hparse : parseFmt (replaceChars (replaceChars
      ("\x7bT\x7d K" : String).data ['\\', 'n'] ['\n']) ['\\', '"'] ['"']) =
      some [FmtChunk.field "T", FmtChunk.lit ' ', FmtChunk.lit 'K'] := by
    simp [replaceChars, List.isPrefixOf, parseFmt, List.takeWhile, List.dropWhile]
  have hmain := run_input_template_missing_key (fun _ => Except.error "no file")
    (PyVal.dict [("input_template", PyVal.str "\x7bT\x7d K")]) []
    [("mass_commands", PyVal.str "mass 1 1.0"), ("atom_types", PyVal.int 1),
     ("pair_coeff_commands", PyVal.str "pair_coeff 1 1 1.0 1.0")]
    ("\x7bT\x7d K" : String).data
    [FmtChunk.field "T", FmtChunk.lit ' ', FmtChunk.lit 'K'] "T"
    (by decide) rfl rfl hparse (by decide) rfl
  exact ⟨by decide, rfl, rfl, hparse, by decide, rfl, hmain.1, hmain.2⟩

end MCG
